import Mathlib

/-!
Verification of the serd streaming RDF reader and its URI engine.

The development shallowly embeds the C sources: the URI engine
(serd_uri_parse, serd_uri_resolve, serd_uri_serialise from uri.c) as pure
functions on byte lists, and the Turtle reader (reader.c) as a fuelled
state-passing interpreter over the in-memory input path of
serd_reader_read_string (from_file = false, so the paging branches of
peek_string and eat_byte are never taken). Bytes are Nat; a C string is
the list of its bytes before the terminating NUL, and reading at or past
the end of the list yields 0, exactly as the C code sees the NUL
terminator and the zero-filled tail of the read buffer.
-/

namespace Serd

/-- Bytes of an ASCII string literal (all constants in this file are ASCII,
so the character code is the byte). -/
def strBytes (s : String) : List Nat := s.data.map Char.toNat

/-- Byte at offset i of a NUL-terminated C string modelled as a list:
past the end every byte reads as 0. -/
def byteAt (l : List Nat) (i : Nat) : Nat := (l.drop i).headD 0

/-- serd_internal.h helper (header not under src/): ASCII letter test. -/
def is_alpha (c : Nat) : Bool := (65 ≤ c && c ≤ 90) || (97 ≤ c && c ≤ 122)

/-- serd_internal.h helper (header not under src/): ASCII digit test. -/
def is_digit (c : Nat) : Bool := 48 ≤ c && c ≤ 57

/-- serd_internal.h helper (header not under src/): inclusive range test. -/
def in_range (c lo hi : Nat) : Bool := lo ≤ c && c ≤ hi

/-! ## URI engine (uri.c)

A SerdRange (buf pointer, len) is modelled as Option (List Nat): none is a
NULL buf, some l is a range whose bytes are l and whose len is l.length.
Every range the parser or resolver builds has len equal to the number of
bytes at buf, so the representation is exact. -/

/-- Parsed URI (serd.h): six ranges. The base_uri_has_authority flag of the
old public header is never read by uri.c and is omitted. -/
structure SerdURI where
  scheme    : Option (List Nat)
  authority : Option (List Nat)
  path_base : Option (List Nat)
  path      : Option (List Nat)
  query     : Option (List Nat)
  fragment  : Option (List Nat)
deriving Repr, DecidableEq

/-- SERD_URI_NULL: all ranges null. -/
def SERD_URI_NULL : SerdURI := ⟨none, none, none, none, none, none⟩

/-- Length of a range (len field; 0 when buf is NULL). -/
def rlen : Option (List Nat) → Nat
  | none => 0
  | some l => l.length

/-- Split a byte list at the first byte in stops: returns (prefix of bytes
not in stops, remainder starting with the stop byte or empty). This is the
scanning idiom of every component loop in serd_uri_parse, where the NUL
terminator corresponds to the end of the list. -/
def scanTo (stops : List Nat) : List Nat → List Nat × List Nat
  | [] => ([], [])
  | c :: rest =>
    if c ∈ stops then ([], c :: rest)
    else
      let p := scanTo stops rest
      (c :: p.1, p.2)

/-- Scheme phase of serd_uri_parse: if the first byte is ALPHA, scan from
the second byte to the first of '/', '?', '#', ':' or end; a ':' yields
the scheme (bytes before it) and the remainder after the ':', anything
else means the URI is relative. All other bytes continue the scan (the C
loop falls through its switch for every byte that is not a terminator). -/
def schemeSplit (s : List Nat) : Option (List Nat × List Nat) :=
  match s with
  | [] => none
  | c :: rest =>
    if is_alpha c then
      match scanTo [47, 63, 35, 58] rest with
      | (a, 58 :: r2) => some (c :: a, r2)
      | _ => none
    else none

/-- Authority phase: a leading "//" introduces an authority running to the
first '/', '?', '#' or end (the stop byte itself is left in the rest). -/
def parseAuthority (s : List Nat) : Option (List Nat) × List Nat :=
  if byteAt s 0 = 47 ∧ byteAt s 1 = 47 then
    let p := scanTo [47, 63, 35] (s.drop 2)
    (some p.1, p.2)
  else (none, s)

/-- Path phase: the path starts only when the current byte is not '?', '#'
or end, and runs to the first '?', '#' or end. -/
def parsePath (s : List Nat) : Option (List Nat) × List Nat :=
  match s with
  | [] => (none, [])
  | c :: rest =>
    if c = 63 || c = 35 then (none, c :: rest)
    else let p := scanTo [63, 35] (c :: rest); (some p.1, p.2)

/-- Query phase: a leading '?' introduces a query running to the first '#'
or end; the '?' itself is not stored. -/
def parseQuery (s : List Nat) : Option (List Nat) × List Nat :=
  match s with
  | 63 :: rest => let p := scanTo [35] rest; (some p.1, p.2)
  | _ => (none, s)

/-- Fragment phase: a leading '#' makes the whole remainder (including the
'#') the fragment. -/
def parseFragment (s : List Nat) : Option (List Nat) :=
  match s with
  | 35 :: rest => some (35 :: rest)
  | _ => none

/-- Path, query and fragment phases assembled (used by every entry into
the path label of serd_uri_parse). -/
def parseFromPath (sch auth : Option (List Nat)) (s : List Nat) : SerdURI :=
  let pp := parsePath s
  let qq := parseQuery pp.2
  { scheme := sch, authority := auth, path_base := none,
    path := pp.1, query := qq.1, fragment := parseFragment qq.2 }

/-- Authority phase then the rest (entry at the maybe_authority label). -/
def parseFromAuthority (sch : Option (List Nat)) (s : List Nat) : SerdURI :=
  let aa := parseAuthority s
  parseFromPath sch aa.1 aa.2

/-- serd_uri_parse. An input whose first byte is ALPHA but whose scheme
scan fails is relative and restarts at the path label (skipping the
authority test); a non-ALPHA start falls directly into maybe_authority. -/
def uriParse (s : List Nat) : SerdURI :=
  match schemeSplit s with
  | some (sch, rest) => parseFromAuthority (some sch) rest
  | none =>
    if is_alpha (byteAt s 0) then parseFromPath none none s
    else parseFromAuthority none s

/-- serd_uri_resolve (RFC 3986 section 5.2.2, simplified as in the C). -/
def uriResolve (r base : SerdURI) : SerdURI :=
  if rlen r.scheme ≠ 0 then
    { r with path_base := r.path_base }
  else
    if rlen r.authority ≠ 0 then
      { scheme := base.scheme, authority := r.authority, path_base := none,
        path := r.path, query := r.query, fragment := r.fragment }
    else if rlen r.path = 0 then
      { scheme := base.scheme, authority := base.authority,
        path_base := base.path, path := r.path,
        query := if rlen r.query ≠ 0 then r.query else base.query,
        fragment := r.fragment }
    else
      { scheme := base.scheme, authority := base.authority,
        path_base := if byteAt ((r.path).getD []) 0 ≠ 47 then base.path else none,
        path := r.path, query := r.query, fragment := r.fragment }

/-- WRITE_COMPONENT of serd_uri_serialise: writes prefix, bytes, suffix
only when the range's len is non-zero. -/
def writeComp (pre : List Nat) (f : Option (List Nat)) (suf : List Nat) : List Nat :=
  match f with
  | some l => if l.length ≠ 0 then pre ++ l ++ suf else []
  | none => []

/-- Dot-segment chopper of serd_uri_serialise: removes leading "./", "..",
"../", "." segments from the relative path, counting one extra level of up
per "..", and collapses a leading "//" to "/". Matching on the component
list alone is exact: the byte after the path component in the original
string can only be '?', '#' or NUL, none of which is '/' or '.', so the
reads the C does one or two bytes past a short component never change the
branch taken. -/
def chopDots : Nat → List Nat → Nat → List Nat × Nat
  | 0, l, up => (l, up)
  | fuel + 1, l, up =>
    match l with
    | 46 :: 47 :: r2 => chopDots fuel r2 up
    | 46 :: 46 :: 47 :: r3 => chopDots fuel r3 (up + 1)
    | 46 :: 46 :: r2 => chopDots fuel r2 (up + 1)
    | 46 :: rest => chopDots fuel rest up
    | 47 :: 47 :: r2 => chopDots fuel (47 :: r2) up
    | _ => (l, up)

/-- Backward walk through path_base looking for the up'th-last slash
(the do/while over base_last), returning the base_len the C computes as
base_last - buf + 1. The body at index i tests the byte and decrements
up on a slash; then the while condition checks up > 0 first and only
then decrements the pointer and compares it against buf. So when up
reaches 0 at index i the walk stops with base_len i + 1; when up is
still positive at index 1 the decrement drives base_last onto buf and
the comparison exits with base_len 1, never examining the byte at
index 0; index 0 is only ever examined when the walk starts there
(a one-byte path_base), where exhausting up gives base_len 1 and a
surviving up lets the decrement drive base_last before buf, giving
base_len 0. -/
def slashWalk (pb : List Nat) : Nat → Nat → Nat
  | 0, up =>
    if (if byteAt pb 0 = 47 then up - 1 else up) = 0 then 1 else 0
  | i + 1, up =>
    let up2 := if byteAt pb (i + 1) = 47 then up - 1 else up
    if up2 = 0 then i + 2
    else
      match i with
      | 0 => 1
      | j + 1 => slashWalk pb (j + 1) up2

/-- The path part written by serd_uri_serialise when path_base is
non-empty: either path_base alone (relative reference that was only a
query or fragment), or the merge of path_base and path with dot segments
removed. -/
def mergedPath (u : SerdURI) : List Nat :=
  match u.path with
  | none =>
    if u.fragment ≠ none || u.query ≠ none then writeComp [] u.path_base []
    else []
  | some p =>
    match u.path_base with
    | some pb =>
      let ch := chopDots (p.length + 1) p 1
      pb.take (slashWalk pb (pb.length - 1) ch.2) ++ ch.1
    | none => writeComp [] u.path_base []

/-- serd_uri_serialise: the byte sequence pushed to the sink. The returned
write_size of the C function is the length of this list. -/
def uriSerialise (u : SerdURI) : List Nat :=
  writeComp [] u.scheme [58]
  ++ (match u.authority with
      | some a => [47, 47] ++ a
      | none => [])
  ++ (if rlen u.path_base ≠ 0 then mergedPath u
      else writeComp [] u.path [])
  ++ writeComp [63] u.query []
  ++ writeComp [] u.fragment []

/-- C7: parsing base http://a/b/c/d;p?q and reference ../../g, resolving
and serialising yields exactly the bytes http://a/g (RFC 3986 normal
example). -/
theorem C7_resolve_normal_example :
    uriSerialise (uriResolve (uriParse (strBytes "../../g"))
                             (uriParse (strBytes "http://a/b/c/d;p?q")))
      = strBytes "http://a/g" := by decide

/-! ## Reader data model (reader.c)

The reader is embedded along the in-memory input path of
serd_reader_read_string: from_file is false, so page() is never called and
the read buffer is exactly the NUL-terminated input string. Sink callbacks
are modelled as optional Lean functions in the reader configuration; every
callback invocation is also recorded, in order, in an event list carried
by the state, so theorems can observe the exact sequence of sink calls. -/

/-- Node kind (serd.h, not under src/; modelled from the spec: URI, CURIE,
BLANK, LITERAL, with NOTHING for the null node). -/
inductive SerdType where
  | NOTHING
  | URI
  | CURIE
  | BLANK
  | LITERAL
deriving Repr, DecidableEq

/-- Internal node: a type tag and a Ref (byte offset into the stack). -/
structure Node where
  typ : SerdType
  value : Nat
deriving Repr, DecidableEq

/-- INTERNAL_NODE_NULL = { 0, 0 }. -/
def INTERNAL_NODE_NULL : Node := ⟨SerdType.NOTHING, 0⟩

/-- Public node handed to sinks (serd.h): bytes, byte and character
counts, node flags, type. -/
structure SerdNode where
  buf : List Nat
  n_bytes : Nat
  n_chars : Nat
  flags : Nat
  typ : SerdType
deriving Repr, DecidableEq

/-- SERD_NODE_NULL. -/
def SERD_NODE_NULL : SerdNode := ⟨[], 0, 0, 0, SerdType.NOTHING⟩

/-- Statement flags (serd.h, not under src/; modelled from the spec flag
list: EMPTY_S, EMPTY_O, ANON_S_BEGIN, ANON_O_BEGIN, ANON_CONT as distinct
bits of a 32-bit word). -/
def SERD_EMPTY_S : Nat := 1

/-- Empty anonymous object flag. -/
def SERD_EMPTY_O : Nat := 2

/-- Anonymous subject begin flag. -/
def SERD_ANON_S_BEGIN : Nat := 4

/-- Anonymous object begin flag. -/
def SERD_ANON_O_BEGIN : Nat := 8

/-- Anonymous continuation flag. -/
def SERD_ANON_CONT : Nat := 16

/-- Bitwise complement of SERD_ANON_CONT on a uint32
(the mask used by flags &= ~SERD_ANON_CONT). -/
def NOT_ANON_CONT : Nat := 4294967295 - SERD_ANON_CONT

/-- Node flags (serd.h, not under src/; modelled from the spec:
HAS_NEWLINE and HAS_QUOTE as distinct bits). -/
def SERD_HAS_NEWLINE : Nat := 1

/-- Literal contains a double quote. -/
def SERD_HAS_QUOTE : Nat := 2

/-- SerdStatus (serd.h, not under src/; modelled from the spec taxonomy in
its listed order: Success, Failure, ErrUnknown, ErrBadSyntax, ErrBadArg;
the code compares with st < SERD_ERR_UNKNOWN). -/
def SERD_SUCCESS : Nat := 0

/-- Recoverable no-match. -/
def SERD_FAILURE : Nat := 1

/-- Fatal failure or sink refusal. -/
def SERD_ERR_UNKNOWN : Nat := 2

/-- Syntax error. -/
def SERD_ERR_BAD_SYNTAX : Nat := 3

/-- Bad argument. -/
def SERD_ERR_BAD_ARG : Nat := 4

/-- One record of the string stack: its Ref (byte offset of the SerdString
header within the stack buffer), the two counts, and the content bytes. -/
structure StackRec where
  off : Nat
  n_bytes : Nat
  n_chars : Nat
  buf : List Nat
deriving Repr, DecidableEq

/-- SERD_STACK_BOTTOM (serd_internal.h, not under src/): the stack starts
at a reserved non-zero offset (sizeof(void*) = 8 on LP64) so that Ref 0
means null. -/
def STACK_BOTTOM : Nat := 8

/-- sizeof(SerdString) on LP64: two size_t header fields. -/
def SERD_STRING_HEADER : Nat := 16

/-- A sink-callback invocation, in order of occurrence. -/
inductive Event where
  | stmt (flags : Nat) (g s p o d l : SerdNode)
  | base (uri : SerdNode)
  | prefixDecl (name uri : SerdNode)
  | endAnon (node : SerdNode)
deriving Repr, DecidableEq

/-- Input syntax (SerdSyntax of serd.h). -/
inductive SerdSyn where
  | TURTLE
  | NTRIPLES
deriving Repr, DecidableEq

/-- Reader configuration: the syntax and the four optional sinks
(serd_reader_new arguments). A sink returns the C callback's return
value; non-zero means abort. -/
structure RCfg where
  syn : SerdSyn
  base_sink : Option (SerdNode → Nat)
  prefix_sink : Option (SerdNode → SerdNode → Nat)
  statement_sink : Option (Nat → SerdNode → SerdNode → SerdNode → SerdNode → SerdNode → SerdNode → Nat)
  end_sink : Option (SerdNode → Nat)

/-- Mutable reader state (struct SerdReaderImpl plus the per-statement
flags word that ctx.flags points to, plus the event log). -/
structure RState where
  input : List Nat
  read_head : Nat
  line : Nat
  col : Nat
  eof : Bool
  stack : List StackRec
  stackSize : Nat
  next_id : Nat
  bPfx : Option (List Nat)
  flagsWord : Nat
  events : List Event
deriving Repr

/-- Read context threaded through the recursive descent (flags live in
the state, since all contexts of one statement share one flags word). -/
structure ReadContext where
  graph : Option Node
  subject : Option Node
  predicate : Option Node

/-! ## String stack operations -/

/-- deref: find the record at a Ref. -/
def findRec (stack : List StackRec) (ref : Nat) : Option StackRec :=
  stack.find? (fun r => r.off == ref)

/-- push_string: reserve a header and the bytes (plus NUL) on the stack;
n_chars is set to n_bytes (the C string is not measured). -/
def push_string (st : RState) (c_str : List Nat) : Nat × RState :=
  let ref := st.stackSize
  (ref, { st with
          stack := ⟨ref, c_str.length, c_str.length, c_str⟩ :: st.stack,
          stackSize := st.stackSize + SERD_STRING_HEADER + c_str.length + 1 })

/-- push_uri. -/
def push_uri (st : RState) (s : List Nat) : Node × RState :=
  let p := push_string st s
  (⟨SerdType.URI, p.1⟩, p.2)

/-- Apply an update to the record at a Ref (the deref-and-write pattern
of push_byte and append_string). -/
def updAt (stack : List StackRec) (ref : Nat) (upd : StackRec → StackRec) : List StackRec :=
  stack.map (fun r => if r.off = ref then upd r else r)

/-- The record update push_byte performs: one more byte, one more
character unless the byte is a UTF-8 continuation byte. -/
def pushUpd (c : Nat) (r : StackRec) : StackRec :=
  { r with n_bytes := r.n_bytes + 1,
           n_chars := r.n_chars + (if c &&& 0xC0 ≠ 0x80 then 1 else 0),
           buf := r.buf ++ [c] }

/-- push_byte: append one byte to the record at ref (always the top record
in every execution). The stack grows by one byte. -/
def push_byte (st : RState) (ref c : Nat) : RState :=
  { st with
    stack := updAt st.stack ref (pushUpd c),
    stackSize := st.stackSize + 1 }

/-- append_string: bulk append; n_bytes and n_chars each grow by the
length (the caller is responsible for multibyte data). -/
def append_string (st : RState) (ref : Nat) (suffix : List Nat) : RState :=
  { st with
    stack := updAt st.stack ref (fun r =>
      { r with n_bytes := r.n_bytes + suffix.length,
               n_chars := r.n_chars + suffix.length,
               buf := r.buf ++ suffix }),
    stackSize := st.stackSize + suffix.length }

/-- Refs of the three RDF vocabulary strings pushed at reader
construction, in construction order (first 48 bytes, rest 47, nil 46). -/
def rdfFirstRef : Nat := STACK_BOTTOM

/-- Ref of the rdf:rest vocabulary string. -/
def rdfRestRef : Nat := rdfFirstRef + SERD_STRING_HEADER + 48 + 1

/-- Ref of the rdf:nil vocabulary string. -/
def rdfNilRef : Nat := rdfRestRef + SERD_STRING_HEADER + 47 + 1

/-- reader->rdf_first. -/
def rdf_first : Node := ⟨SerdType.URI, rdfFirstRef⟩

/-- reader->rdf_rest. -/
def rdf_rest : Node := ⟨SerdType.URI, rdfRestRef⟩

/-- reader->rdf_nil. -/
def rdf_nil : Node := ⟨SerdType.URI, rdfNilRef⟩

/-- pop_string: a no-op for Ref 0 and for the three vocabulary strings;
otherwise the stack size shrinks by the record's footprint (header + bytes
+ NUL) and records above the new size are gone. -/
def pop_string (st : RState) (ref : Nat) : RState :=
  { st with
    stackSize :=
      if ref = 0 ∨ ref = rdfNilRef ∨ ref = rdfFirstRef ∨ ref = rdfRestRef then st.stackSize
      else match findRec st.stack ref with
           | none => st.stackSize
           | some r => st.stackSize - (SERD_STRING_HEADER + r.n_bytes + 1),
    stack :=
      if ref = 0 ∨ ref = rdfNilRef ∨ ref = rdfFirstRef ∨ ref = rdfRestRef then st.stack
      else match findRec st.stack ref with
           | none => st.stack
           | some r =>
             st.stack.filter (fun q => q.off < st.stackSize - (SERD_STRING_HEADER + r.n_bytes + 1)) }

/-- public_node_from_ref: copy the measured string at ref out of the
arena (the null Ref gives SERD_NODE_NULL). -/
def public_node_from_ref (st : RState) (typ : SerdType) (ref : Nat) : SerdNode :=
  if ref = 0 then SERD_NODE_NULL
  else match findRec st.stack ref with
       | some r => ⟨r.buf, r.n_bytes, r.n_chars, 0, typ⟩
       | none => SERD_NODE_NULL

/-- public_node: NULL private nodes give SERD_NODE_NULL. -/
def public_node (st : RState) : Option Node → SerdNode
  | some n => public_node_from_ref st n.typ n.value
  | none => SERD_NODE_NULL

/-- RDF namespace. -/
def NS_RDF : String := "http://www.w3.org/1999/02/22-rdf-syntax-ns#"

/-- XSD namespace. -/
def NS_XSD : String := "http://www.w3.org/2001/XMLSchema#"

/-- Reader state as serd_reader_new leaves it: stack holding the three
vocabulary strings, next_id 1, no blank prefix, no input yet. -/
def serd_reader_new : RState :=
  let st0 : RState :=
    { input := [], read_head := 0, line := 0, col := 0, eof := false,
      stack := [], stackSize := STACK_BOTTOM, next_id := 1, bPfx := none,
      flagsWord := 0, events := [] }
  let p1 := push_string st0 (strBytes (NS_RDF ++ "first"))
  let p2 := push_string p1.2 (strBytes (NS_RDF ++ "rest"))
  let p3 := push_string p2.2 (strBytes (NS_RDF ++ "nil"))
  p3.2

/-- serd_reader_add_blank_prefix (named add_blank_pfx here). -/
def serd_reader_add_blank_pfx (st : RState) (pfx : Option (List Nat)) : RState :=
  { st with bPfx := pfx }

/-- The vocabulary Refs really are the offsets produced by construction. -/
theorem reader_new_vocab_refs :
    findRec serd_reader_new.stack rdfFirstRef
        = some ⟨rdfFirstRef, 48, 48, strBytes (NS_RDF ++ "first")⟩
    ∧ findRec serd_reader_new.stack rdfRestRef
        = some ⟨rdfRestRef, 47, 47, strBytes (NS_RDF ++ "rest")⟩
    ∧ findRec serd_reader_new.stack rdfNilRef
        = some ⟨rdfNilRef, 46, 46, strBytes (NS_RDF ++ "nil")⟩ := by
  constructor
  · rfl
  constructor
  · rfl
  · rfl

/-! ## Read buffer primitives (string input: from_file is false) -/

/-- peek_byte: the byte at the read head (0 at or past the NUL). -/
def peek_byte (st : RState) : Nat := byteAt st.input st.read_head

/-- peek_string viewed as the n-byte window at the read head; bytes at or
past the NUL read as 0. The C fills its buffer until it hits the NUL and
every caller tests the window bytes with short-circuiting conditions, so
the zero-filled window is observationally exact. -/
def peekWindow (st : RState) (n : Nat) : List Nat :=
  (List.range n).map (fun i => byteAt st.input (st.read_head + i))

/-- eat_byte: advance the head and the cursor; return 0 (error) when the
byte read is not the expected one; latch eof when the next byte is the
NUL terminator. -/
def eat_byte (st : RState) (byte : Nat) : Nat × RState :=
  let c := peek_byte st
  let st1 := { st with read_head := st.read_head + 1,
                       line := if c = 10 then st.line + 1 else st.line,
                       col := if c = 10 then 0 else st.col + 1 }
  if c ≠ byte then (0, st1)
  else if byteAt st1.input st1.read_head = 0 then (c, { st1 with eof := true })
  else (c, st1)

/-- eat_string: eat each byte in turn (failures are not checked, exactly
as in the C). -/
def eat_string (st : RState) (sbytes : List Nat) : RState :=
  sbytes.foldl (fun s b => (eat_byte s b).2) st

/-! ## Escapes and characters -/

/-- read_hex: eat one uppercase hex digit, or return 0 (error). -/
def read_hex (st : RState) : Nat × RState :=
  let c := peek_byte st
  if in_range c 0x30 0x39 || in_range c 0x41 0x46 then eat_byte st c
  else (0, st)

/-- The digit-reading loop of read_hex_escape: each failed read_hex
leaves a 0 in the buffer and does not consume. -/
def readHexDigits : Nat → RState → List Nat × RState
  | 0, st => ([], st)
  | n + 1, st =>
    let p := read_hex st
    let q := readHexDigits n p.2
    (p.1 :: q.1, q.2)

/-- Numeric value of one ASCII hex digit (only 0-9 and A-F occur). -/
def hexDigitVal (c : Nat) : Nat := if c ≤ 57 then c - 48 else c - 55

/-- sscanf("%X") over the digit buffer: the value of the digits before
the first NUL. -/
def sscanfHex (digits : List Nat) : Nat :=
  (digits.takeWhile (fun c => c ≠ 0)).foldl (fun a c => a * 16 + hexDigitVal c) 0

/-- One step of the fall-through UTF-8 encoding switch: produce the
continuation byte 0x80 | (c & 0x3F) and the shifted-and-marked value
c >> 6 | mark. -/
def utf8Step (c mark : Nat) : Nat × Nat := (0x80 ||| (c &&& 0x3F), (c >>> 6) ||| mark)

/-- The byte sequence built by read_hex_escape for codepoint c, exactly
following its size test and fall-through switch (16 << 12 marks bit 16,
32 << 6 marks bit 11, 0xC0 marks the top of the lead byte, and the lead
byte is truncated to uint8); none for c >= 0x200000. -/
def hexEscapeEncode (c : Nat) : Option (List Nat) :=
  if c < 0x80 then some [c]
  else if c < 0x800 then
    let s2 := utf8Step c 0xC0
    some [s2.2 &&& 0xFF, s2.1]
  else if c < 0x10000 then
    let s3 := utf8Step c (32 <<< 6)
    let s2 := utf8Step s3.2 0xC0
    some [s2.2 &&& 0xFF, s2.1, s3.1]
  else if c < 0x200000 then
    let s4 := utf8Step c (16 <<< 12)
    let s3 := utf8Step s4.2 (32 <<< 6)
    let s2 := utf8Step s3.2 0xC0
    some [s2.2 &&& 0xFF, s2.1, s3.1, s4.1]
  else none

/-- read_hex_escape: read length hex digits, decode, and push the UTF-8
bytes of the codepoint onto the destination string; false for codepoints
of 0x200000 and above. -/
def read_hex_escape (st : RState) (length dest : Nat) : Bool × RState :=
  let d := readHexDigits length st
  let c := sscanfHex d.1
  match hexEscapeEncode c with
  | some bytes => (true, bytes.foldl (fun s b => push_byte s dest b) d.2)
  | none => (false, d.2)

/-- read_character_escape: backslash, u or U escapes. -/
def read_character_escape (st : RState) (dest : Nat) : Bool × RState :=
  match peek_byte st with
  | 92 => let e := eat_byte st 92; (true, push_byte e.2 dest e.1)
  | 117 => read_hex_escape (eat_byte st 117).2 4 dest
  | 85 => read_hex_escape (eat_byte st 85).2 8 dest
  | _ => (false, st)

/-- read_echaracter_escape: tab, newline, carriage return (the latter two
set HAS_NEWLINE), else a character escape. Returns (ok, flags, state). -/
def read_echaracter_escape (st : RState) (dest flags : Nat) : Bool × Nat × RState :=
  match peek_byte st with
  | 116 => let e := eat_byte st 116; (true, flags, push_byte e.2 dest 9)
  | 110 => let e := eat_byte st 110; (true, flags ||| SERD_HAS_NEWLINE, push_byte e.2 dest 10)
  | 114 => let e := eat_byte st 114; (true, flags ||| SERD_HAS_NEWLINE, push_byte e.2 dest 13)
  | _ => let r := read_character_escape st dest; (r.1, flags, r.2)

/-- read_scharacter_escape: additionally an escaped quote, which sets
HAS_QUOTE. -/
def read_scharacter_escape (st : RState) (dest flags : Nat) : Bool × Nat × RState :=
  match peek_byte st with
  | 34 =>
    let e := eat_byte st 34
    (true, flags ||| SERD_HAS_QUOTE, push_byte e.2 dest e.1)
  | _ => read_echaracter_escape st dest flags

/-- read_ucharacter_escape: additionally an escaped greater-than; the
node flags are a discarded local here. -/
def read_ucharacter_escape (st : RState) (dest : Nat) : Bool × RState :=
  match peek_byte st with
  | 62 =>
    let e := eat_byte st 62
    (true, push_byte e.2 dest e.1)
  | _ => let r := read_echaracter_escape st dest 0; (r.1, r.2.2)

/-- The loop eating and pushing the size bytes of a multibyte UTF-8
character (continuation bytes are consumed unchecked). -/
def eatPushN : Nat → RState → Nat → RState
  | 0, st, _ => st
  | n + 1, st, dest =>
    let c := peek_byte st
    let e := eat_byte st c
    eatPushN n (push_byte e.2 dest e.1) dest

/-- read_character: one raw character; NUL and control bytes are syntax
errors, printable ASCII is pushed as-is, a lead byte of a 2-, 3- or
4-byte UTF-8 character causes that many bytes to be consumed. -/
def read_character (st : RState) (dest : Nat) : Nat × RState :=
  let c := peek_byte st
  if c = 0 then (SERD_ERR_BAD_SYNTAX, st)
  else if c < 0x20 then (SERD_ERR_BAD_SYNTAX, st)
  else if c ≤ 0x7E then
    let e := eat_byte st c
    (SERD_SUCCESS, push_byte e.2 dest e.1)
  else if c &&& 0xE0 = 0xC0 then (SERD_SUCCESS, eatPushN 2 st dest)
  else if c &&& 0xF0 = 0xE0 then (SERD_SUCCESS, eatPushN 3 st dest)
  else if c &&& 0xF8 = 0xF0 then (SERD_SUCCESS, eatPushN 4 st dest)
  else (SERD_ERR_BAD_SYNTAX, st)

/-- read_echaracter. In the escape branch the C passes the peeked byte
value where the destination Ref is expected (a latent slip, unreachable
from read_lcharacter which handles the backslash itself); the model
reproduces it. -/
def read_echaracter (st : RState) (dest : Nat) : Nat × RState :=
  match peek_byte st with
  | 92 =>
    let e := eat_byte st 92
    let r := read_echaracter_escape e.2 (peek_byte e.2) 0
    if r.1 then (SERD_SUCCESS, r.2.2) else (SERD_ERR_BAD_SYNTAX, r.2.2)
  | _ => read_character st dest

/-- read_lcharacter: long-string characters. Three quotes not followed by
a fourth close the long string (FAILURE); a lone quote is content and
sets HAS_QUOTE; escapes and raw tab, newline, carriage return are
content. Returns (status, flags, state). -/
def read_lcharacter (st : RState) (dest flags : Nat) : Nat × Nat × RState :=
  match peek_byte st with
  | 34 =>
    let w := peekWindow st 4
    if w.getD 1 0 = 34 ∧ w.getD 2 0 = 34 ∧ w.getD 3 0 ≠ 34 then
      let s1 := (eat_byte st 34).2
      let s2 := (eat_byte s1 34).2
      let s3 := (eat_byte s2 34).2
      (SERD_FAILURE, flags, s3)
    else
      let e := eat_byte st 34
      (SERD_SUCCESS, flags ||| SERD_HAS_QUOTE, push_byte e.2 dest e.1)
  | 92 =>
    let e := eat_byte st 92
    let r := read_scharacter_escape e.2 dest flags
    if r.1 then (SERD_SUCCESS, r.2.1, r.2.2) else (SERD_ERR_BAD_SYNTAX, r.2.1, r.2.2)
  | 10 =>
    let e := eat_byte st 10
    (SERD_SUCCESS, flags ||| SERD_HAS_NEWLINE, push_byte e.2 dest e.1)
  | 13 =>
    let e := eat_byte st 13
    (SERD_SUCCESS, flags ||| SERD_HAS_NEWLINE, push_byte e.2 dest e.1)
  | 9 =>
    let e := eat_byte st 9
    (SERD_SUCCESS, flags, push_byte e.2 dest e.1)
  | _ => let r := read_echaracter st dest; (r.1, flags, r.2)

/-- read_scharacter: short-string characters; an unescaped quote ends the
string (FAILURE). -/
def read_scharacter (st : RState) (dest flags : Nat) : Nat × Nat × RState :=
  match peek_byte st with
  | 92 =>
    let e := eat_byte st 92
    let r := read_scharacter_escape e.2 dest flags
    if r.1 then (SERD_SUCCESS, r.2.1, r.2.2) else (SERD_ERR_BAD_SYNTAX, r.2.1, r.2.2)
  | 34 => (SERD_FAILURE, flags, st)
  | _ => let r := read_character st dest; (r.1, flags, r.2)

/-- read_ucharacter: URI characters; an unescaped greater-than ends the
reference (FAILURE). An illegal escape returns error(...) whose value 0
is SERD_SUCCESS, so it is silently skipped, exactly as in the C. -/
def read_ucharacter (st : RState) (dest : Nat) : Nat × RState :=
  match peek_byte st with
  | 92 =>
    let e := eat_byte st 92
    let r := read_ucharacter_escape e.2 dest
    if r.1 then (SERD_SUCCESS, r.2) else (SERD_SUCCESS, r.2)
  | 62 => (SERD_FAILURE, st)
  | _ => read_character st dest

/-! ## Whitespace, comments, strings, names -/

/-- The body loop of read_comment: eat until a newline or carriage
return byte is at the head (the NUL does not stop the C loop either;
fuel bounds the iteration). -/
def commentLoop : Nat → RState → RState
  | 0, st => st
  | f + 1, st =>
    let c := peek_byte st
    if c ≠ 10 ∧ c ≠ 13 then commentLoop f (eat_byte st c).2 else st

/-- read_comment. -/
def read_comment (fuel : Nat) (st : RState) : RState :=
  commentLoop fuel (eat_byte st 35).2

/-- read_ws: one whitespace byte or one comment. -/
def read_ws (fuel : Nat) (st : RState) : Bool × RState :=
  match peek_byte st with
  | 9 => (true, (eat_byte st 9).2)
  | 10 => (true, (eat_byte st 10).2)
  | 13 => (true, (eat_byte st 13).2)
  | 32 => (true, (eat_byte st 32).2)
  | 35 => (true, read_comment fuel st)
  | _ => (false, st)

/-- read_ws_star. -/
def read_ws_star : Nat → RState → RState
  | 0, st => st
  | f + 1, st =>
    let r := read_ws f st
    if r.1 then read_ws_star f r.2 else r.2

/-- read_ws_plus. -/
def read_ws_plus (fuel : Nat) (st : RState) : Bool × RState :=
  let r := read_ws fuel st
  if r.1 then (true, read_ws_star fuel r.2) else (false, r.2)

/-- The lcharacter loop of read_longString. Out of fuel counts as a
fatal status so the surrounding function fails, which can only happen
below the fuel bounds used in this file. -/
def longStringLoop : Nat → RState → Nat → Nat → Nat × Nat × RState
  | 0, st, _, flags => (SERD_ERR_UNKNOWN, flags, st)
  | f + 1, st, str, flags =>
    let r := read_lcharacter st str flags
    if r.1 = SERD_SUCCESS then longStringLoop f r.2.2 str r.2.1 else r

/-- read_longString: three quotes, lcharacters, three quotes. Returns
(Ref or 0, flags, state). -/
def read_longString (fuel : Nat) (st : RState) (flags : Nat) : Nat × Nat × RState :=
  let st1 := eat_string st (strBytes "\"\"\"")
  let p := push_string st1 []
  let l := longStringLoop fuel p.2 p.1 flags
  if l.1 < SERD_ERR_UNKNOWN then (p.1, l.2.1, l.2.2)
  else (0, l.2.1, pop_string l.2.2 p.1)

/-- The scharacter loop of read_string. -/
def stringLoop : Nat → RState → Nat → Nat → Nat × Nat × RState
  | 0, st, _, flags => (SERD_ERR_UNKNOWN, flags, st)
  | f + 1, st, str, flags =>
    let r := read_scharacter st str flags
    if r.1 = SERD_SUCCESS then stringLoop f r.2.2 str r.2.1 else r

/-- read_string: quote, scharacters, quote. -/
def read_string (fuel : Nat) (st : RState) (flags : Nat) : Nat × Nat × RState :=
  let st1 := (eat_byte st 34).2
  let p := push_string st1 []
  let l := stringLoop fuel p.2 p.1 flags
  if l.1 < SERD_ERR_UNKNOWN then (p.1, l.2.1, (eat_byte l.2.2 34).2)
  else (0, l.2.1, pop_string l.2.2 p.1)

/-- read_quotedString: dispatch on the second and third peeked bytes. -/
def read_quotedString (fuel : Nat) (st : RState) (flags : Nat) : Nat × Nat × RState :=
  let w := peekWindow st 3
  if w.getD 1 0 = 34 ∧ w.getD 2 0 = 34 then read_longString fuel st flags
  else read_string fuel st flags

/-- The ucharacter loop of read_relativeURI. -/
def relativeURILoop : Nat → RState → Nat → Nat × RState
  | 0, st, _ => (SERD_ERR_UNKNOWN, st)
  | f + 1, st, str =>
    let r := read_ucharacter st str
    if r.1 = SERD_SUCCESS then relativeURILoop f r.2 str else r

/-- read_relativeURI. -/
def read_relativeURI (fuel : Nat) (st : RState) : Nat × RState :=
  let p := push_string st []
  let l := relativeURILoop fuel p.2 p.1
  if l.1 < SERD_ERR_UNKNOWN then (p.1, l.2)
  else (0, pop_string l.2 p.1)

/-- read_nameStartChar: underscore or ASCII letter (the C notes this is
not strictly the Turtle set). -/
def read_nameStartChar (st : RState) (required : Bool) : Nat × RState :=
  let c := peek_byte st
  if c = 95 || is_alpha c then eat_byte st c else (0, st)

/-- read_nameChar: a name start character, a dash, 0xB7 or a digit. -/
def read_nameChar (st : RState) : Nat × RState :=
  let r := read_nameStartChar st false
  if r.1 ≠ 0 then r
  else
    let c := peek_byte st
    if c = 45 || c = 0xB7 || is_digit c then eat_byte st c else (0, st)

/-- The nameChar loop shared by prefixName and name reading. -/
def nameLoop : Nat → RState → Nat → RState
  | 0, st, _ => st
  | f + 1, st, dest =>
    let r := read_nameChar st
    if r.1 ≠ 0 then nameLoop f (push_byte r.2 dest r.1) dest else r.2

/-- read_prefixName: a name that must not start with an underscore;
returns its Ref or 0. -/
def readPrefixName (fuel : Nat) (st : RState) : Nat × RState :=
  let c := peek_byte st
  if c = 95 then (0, st)
  else
    let r := read_nameStartChar st false
    if r.1 = 0 then (0, r.2)
    else
      let p := push_string r.2 []
      (p.1, nameLoop fuel (push_byte p.2 p.1 r.1) p.1)

/-- read_name: append a name to an existing destination string; returns
the destination Ref or 0 when no name start character is present. -/
def read_name (fuel : Nat) (st : RState) (dest : Nat) (required : Bool) : Nat × RState :=
  let r := read_nameStartChar st required
  if r.1 = 0 then (0, r.2)
  else (dest, nameLoop fuel (push_byte r.2 dest r.1) dest)

/-- The lowercase-letter loop of read_language. -/
def langAZLoop : Nat → RState → Nat → RState
  | 0, st, _ => st
  | f + 1, st, str =>
    let c := peek_byte st
    if in_range c 97 122 then langAZLoop f (push_byte (eat_byte st c).2 str c) str
    else st

/-- The letter-or-digit loop after a dash in read_language. -/
def langSubLoop : Nat → RState → Nat → RState
  | 0, st, _ => st
  | f + 1, st, str =>
    let c := peek_byte st
    if in_range c 97 122 || in_range c 48 57 then
      langSubLoop f (push_byte (eat_byte st c).2 str c) str
    else st

/-- The dash-subtag loop of read_language. -/
def langDashLoop : Nat → RState → Nat → RState
  | 0, st, _ => st
  | f + 1, st, str =>
    if peek_byte st = 45 then
      let st1 := push_byte (eat_byte st 45).2 str 45
      langDashLoop f (langSubLoop f st1 str) str
    else st

/-- read_language: [a-z]+ ('-' [a-z0-9]+)*. Returns its Ref or 0. -/
def read_language (fuel : Nat) (st : RState) : Nat × RState :=
  let start := peek_byte st
  if ¬ in_range start 97 122 then (0, st)
  else
    let p := push_string st []
    let e := eat_byte p.2 start
    let st1 := push_byte e.2 p.1 e.1
    let st2 := langAZLoop fuel st1 p.1
    (p.1, langDashLoop fuel st2 p.1)

/-- read_uriref: '<' relativeURI '>'. The closing eat is skipped when the
body failed, exactly as the short-circuit in the C. -/
def read_uriref (fuel : Nat) (st : RState) : Nat × RState :=
  let e := eat_byte st 60
  if e.1 = 0 then (0, e.2)
  else
    let r := read_relativeURI fuel e.2
    if r.1 ≠ 0 then
      let e2 := eat_byte r.2 62
      if e2.1 ≠ 0 then (r.1, e2.2)
      else (0, pop_string e2.2 r.1)
    else (0, pop_string r.2 r.1)

/-- read_qname: prefixName? ':' name?. -/
def read_qname (fuel : Nat) (st : RState) : Nat × RState :=
  let p := readPrefixName fuel st
  let pr := if p.1 = 0 then push_string p.2 [] else (p.1, p.2)
  let e := eat_byte pr.2 58
  if e.1 = 0 then (0, pop_string e.2 pr.1)
  else
    let st1 := push_byte e.2 pr.1 58
    let n := read_name fuel st1 pr.1 false
    if n.1 ≠ 0 then (n.1, n.2) else (pr.1, n.2)

/-! ## Numbers, literals, verbs, node IDs -/

/-- The digit loop of read_0_9. -/
def digitLoop : Nat → RState → Nat → RState
  | 0, st, _ => st
  | f + 1, st, str =>
    let c := peek_byte st
    if is_digit c then digitLoop f (push_byte (eat_byte st c).2 str c) str else st

/-- read_0_9: push digits onto str; when at_least_one, the first byte
must be a digit or the function fails. -/
def read_0_9 (fuel : Nat) (st : RState) (str : Nat) (at_least_one : Bool) : Bool × RState :=
  if at_least_one then
    let c := peek_byte st
    if ¬ is_digit c then (false, st)
    else (true, digitLoop fuel (push_byte (eat_byte st c).2 str c) str)
  else (true, digitLoop fuel st str)

/-- The tail of read_number after the mantissa: an exponent makes the
datatype xsd:double (the digits after it are read with the result
ignored, as in the C), else a seen decimal point makes it xsd:decimal,
else xsd:integer. -/
def readNumberSuffix (fuel : Nat) (st : RState) (str : Nat) (has_decimal : Bool) :
    Bool × Node × Node × RState :=
  let c := peek_byte st
  if c = 101 ∨ c = 69 then
    let st1 := push_byte (eat_byte st c).2 str c
    let c2 := peek_byte st1
    let st2 := if c2 = 43 ∨ c2 = 45 then push_byte (eat_byte st1 c2).2 str c2 else st1
    let r := read_0_9 fuel st2 str true
    let d := push_uri r.2 (strBytes (NS_XSD ++ "double"))
    (true, ⟨SerdType.LITERAL, str⟩, d.1, d.2)
  else if has_decimal then
    let d := push_uri st (strBytes (NS_XSD ++ "decimal"))
    (true, ⟨SerdType.LITERAL, str⟩, d.1, d.2)
  else
    let d := push_uri st (strBytes (NS_XSD ++ "integer"))
    (true, ⟨SerdType.LITERAL, str⟩, d.1, d.2)

/-- The mantissa of read_number after the optional sign: either a
leading decimal point with mandatory digits, or digits with an optional
decimal point and optional further digits, then readNumberSuffix. On
failure the token string is popped (the datatype the C pops there is
still the caller's null). -/
def readNumberMantissa (fuel : Nat) (st1 : RState) (str : Nat) : Bool × Node × Node × RState :=
  let c2 := peek_byte st1
  if c2 = 46 then
    let st2 := push_byte (eat_byte st1 46).2 str 46
    let r := read_0_9 fuel st2 str true
    if ¬ r.1 then (false, INTERNAL_NODE_NULL, INTERNAL_NODE_NULL, pop_string r.2 str)
    else readNumberSuffix fuel r.2 str true
  else
    let r := read_0_9 fuel st1 str true
    if ¬ r.1 then (false, INTERNAL_NODE_NULL, INTERNAL_NODE_NULL, pop_string r.2 str)
    else
      let c3 := peek_byte r.2
      if c3 = 46 then
        let st2 := push_byte (eat_byte r.2 46).2 str 46
        let r2 := read_0_9 fuel st2 str false
        if ¬ r2.1 then (false, INTERNAL_NODE_NULL, INTERNAL_NODE_NULL, pop_string r2.2 str)
        else readNumberSuffix fuel r2.2 str true
      else readNumberSuffix fuel r.2 str false

/-- read_number: push an empty token, take an optional sign, then the
mantissa and suffix. Returns (ret, dest, datatype, state). -/
def read_number (fuel : Nat) (st : RState) : Bool × Node × Node × RState :=
  let p := push_string st []
  let str := p.1
  let c := peek_byte p.2
  let st1 := if c = 45 ∨ c = 43 then push_byte (eat_byte p.2 c).2 str c else p.2
  readNumberMantissa fuel st1 str

/-- read_resource: uriref or qname. Returns (ret, dest, state). -/
def read_resource (fuel : Nat) (st : RState) : Bool × Node × RState :=
  match peek_byte st with
  | 60 =>
    let r := read_uriref fuel st
    (r.1 ≠ 0, ⟨SerdType.URI, r.1⟩, r.2)
  | _ =>
    let r := read_qname fuel st
    (r.1 ≠ 0, ⟨SerdType.CURIE, r.1⟩, r.2)

/-- read_literal: a number, or a quoted string with optional ^^datatype
or @language. Returns (ret, dest, datatype, lang, flags, state). -/
def read_literal (fuel : Nat) (st : RState) (datatype : Node) (lang flags : Nat) :
    Bool × Node × Node × Nat × Nat × RState :=
  let c := peek_byte st
  if c = 45 ∨ c = 43 ∨ c = 46 ∨ is_digit c then
    let r := read_number fuel st
    (r.1, r.2.1, if r.1 then r.2.2.1 else datatype, lang, flags, r.2.2.2)
  else if c = 34 then
    let q := read_quotedString fuel st flags
    let str := q.1
    let flags1 := q.2.1
    let st1 := q.2.2
    if str = 0 then (false, INTERNAL_NODE_NULL, datatype, lang, flags1, st1)
    else
      match peek_byte st1 with
      | 94 =>
        let e1 := (eat_byte st1 94).2
        let e2 := (eat_byte e1 94).2
        let r := read_resource fuel e2
        if ¬ r.1 then (false, INTERNAL_NODE_NULL, r.2.1, lang, flags1, pop_string r.2.2 str)
        else (true, ⟨SerdType.LITERAL, str⟩, r.2.1, lang, flags1, r.2.2)
      | 64 =>
        let e1 := (eat_byte st1 64).2
        let l := read_language fuel e1
        if l.1 = 0 then (false, INTERNAL_NODE_NULL, datatype, l.1, flags1, pop_string l.2 str)
        else (true, ⟨SerdType.LITERAL, str⟩, datatype, l.1, flags1, l.2)
      | _ => (true, ⟨SerdType.LITERAL, str⟩, datatype, lang, flags1, st1)
  else (false, INTERNAL_NODE_NULL, datatype, lang, flags, st)

/-- read_predicate. -/
def read_predicate (fuel : Nat) (st : RState) : Bool × Node × RState :=
  read_resource fuel st

/-- read_verb: a lone letter a followed by whitespace is rdf:type, else a
predicate resource. -/
def read_verb (fuel : Nat) (st : RState) : Bool × Node × RState :=
  let w := peekWindow st 2
  let b1 := w.getD 1 0
  if w.getD 0 0 = 97 ∧ (b1 = 9 ∨ b1 = 10 ∨ b1 = 13 ∨ b1 = 32) then
    let e := eat_byte st 97
    let u := push_uri e.2 (strBytes (NS_RDF ++ "type"))
    (true, u.1, u.2)
  else read_predicate fuel st

/-- The genid-to-docid rewrite of read_nodeID (Turtle only): the first
five bytes are replaced in place when they spell genid. -/
def rewriteGenid (st : RState) (ref : Nat) : RState :=
  { st with stack := updAt st.stack ref (fun r =>
      if r.buf.take 5 = strBytes "genid" then
        { r with buf := strBytes "docid" ++ r.buf.drop 5 }
      else r) }

/-- read_nodeID: '_:' name, with the genid rewrite in Turtle mode.
Returns the Ref of the name string (never 0). -/
def read_nodeID (cfg : RCfg) (fuel : Nat) (st : RState) : Nat × RState :=
  let e1 := (eat_byte st 95).2
  let e2 := (eat_byte e1 58).2
  let p := push_string e2 []
  let n := read_name fuel p.2 p.1 true
  let st1 := if cfg.syn = SerdSyn.TURTLE then rewriteGenid n.2 p.1 else n.2
  (p.1, st1)

/-- Decimal ASCII bytes of a number (snprintf %u). -/
def natDecBytes (n : Nat) : List Nat := (Nat.toDigits 10 n).map Char.toNat

/-- 2^32, the modulus of the unsigned next_id counter. -/
def UINT32_MOD : Nat := 4294967296

/-- blank_id: push the user blank prefix (or an empty string), append
genid and the decimal value of next_id, and post-increment next_id
(unsigned 32-bit). Returns (Ref, state). -/
def blank_id (st : RState) : Nat × RState :=
  let p := match st.bPfx with
           | some b => push_string st b
           | none => push_string st []
  let num := natDecBytes st.next_id
  let st1 := append_string p.2 p.1 (strBytes "genid")
  let st2 := append_string st1 p.1 num
  (p.1, { st2 with next_id := (st2.next_id + 1) % UINT32_MOD })

/-- is_object_end: the bytes ending a bare object token: tab, newline,
carriage return, space, NUL, '#', '.', ';'. -/
def is_object_end (c : Nat) : Bool :=
  c = 0x9 || c = 0xA || c = 0xD || c = 0x20 || c = 0 || c = 35 || c = 46 || c = 59

/-! ## Emission -/

/-- emit_statement: package the context and object into public nodes; a
present statement sink is invoked (recorded as an event) and its non-zero
return aborts; an absent sink succeeds silently. Afterwards the flags
word keeps only ANON_CONT. -/
def emit_statement (cfg : RCfg) (st : RState) (g s p o d : Option Node) (l f : Nat) :
    Bool × RState :=
  let graph := public_node st g
  let subject := public_node st s
  let predicate := public_node st p
  let object0 := public_node st o
  let datatype := public_node st d
  let lang := public_node_from_ref st SerdType.LITERAL l
  let object := { object0 with flags := f }
  let r :=
    match cfg.statement_sink with
    | none => (true, st)
    | some sink =>
      (sink st.flagsWord graph subject predicate object datatype lang = 0,
       { st with events := st.events ++ [Event.stmt st.flagsWord graph subject predicate object datatype lang] })
  (r.1, { r.2 with flagsWord := if r.2.flagsWord &&& SERD_ANON_CONT ≠ 0 then SERD_ANON_CONT else 0 })

/-- The shared tail of read_object: emit when a statement was recognised
in an emitting position, then pop the language, datatype and object
strings (the except label pops the same three references). -/
def readObjFinish (cfg : RCfg) (ctx : ReadContext) (emit ret : Bool) (o datatype : Node)
    (lang flags : Nat) (st : RState) : Bool × RState :=
  let r := if ret ∧ emit then
             emit_statement cfg st ctx.graph ctx.subject ctx.predicate (some o) (some datatype) lang flags
           else (ret, st)
  let st1 := pop_string r.2 lang
  let st2 := pop_string st1 datatype.value
  let st3 := pop_string st2 o.value
  (r.1, st3)

/-! ## The mutually recursive core

The C functions read_object, read_blank, read_collection,
read_collection_rec, read_objectList and read_predicateObjectList are
mutually recursive; recursion depth is bounded by the nesting of the
document. The embedding packages one level of each in a record and builds
level fuel+1 from level fuel by structural recursion on the fuel, so a
call at fuel f can make calls f deep; out of fuel is a parse failure. -/

/-- One fuel level of the mutually recursive parsers. -/
structure Parsers where
  read_object : ReadContext → RState → Bool × RState
  read_blank : ReadContext → Bool → RState → Bool × Node × RState
  read_collection : ReadContext → RState → Bool × Node × RState
  read_collection_rec : ReadContext → RState → Bool × RState
  read_objectList : ReadContext → Bool → RState → Bool × RState
  read_predicateObjectList : ReadContext → Bool → RState → Bool × RState

/-- The zero-fuel level: every parser fails without touching the state. -/
def parsersZero : Parsers :=
  { read_object := fun _ st => (false, st),
    read_blank := fun _ _ st => (false, INTERNAL_NODE_NULL, st),
    read_collection := fun _ st => (false, INTERNAL_NODE_NULL, st),
    read_collection_rec := fun _ st => (false, st),
    read_objectList := fun _ _ st => (false, st),
    read_predicateObjectList := fun _ _ st => (false, st) }

/-- read_blank built over the previous level P. -/
def readBlankStep (cfg : RCfg) (P : Parsers) (fuel : Nat) (ctx : ReadContext)
    (subject : Bool) (st : RState) : Bool × Node × RState :=
  let was_anon_subject := subject && decide ((st.flagsWord ||| SERD_ANON_CONT) ≠ 0)
  match peek_byte st with
  | 95 =>
    let r := read_nodeID cfg fuel st
    (true, ⟨SerdType.BLANK, r.1⟩, r.2)
  | 91 =>
    let st1 := (eat_byte st 91).2
    let st2 := read_ws_star fuel st1
    let b := blank_id st2
    let dest : Node := ⟨SerdType.BLANK, b.1⟩
    if peek_byte b.2 = 93 then
      let st3 := (eat_byte b.2 93).2
      let st4 := { st3 with flagsWord :=
        st3.flagsWord ||| (if subject then SERD_EMPTY_S else SERD_EMPTY_O) }
      match ctx.subject with
      | some _ =>
        let e := emit_statement cfg st4 ctx.graph ctx.subject ctx.predicate (some dest) none 0 0
        if ¬ e.1 then (false, dest, e.2) else (true, dest, e.2)
      | none => (true, dest, st4)
    else
      let st3 := { b.2 with flagsWord :=
        b.2.flagsWord ||| (if subject then SERD_ANON_S_BEGIN else SERD_ANON_O_BEGIN) }
      let e : Bool × RState :=
        match ctx.subject with
        | some _ => emit_statement cfg st3 ctx.graph ctx.subject ctx.predicate (some dest) none 0 0
        | none => (true, st3)
      if ¬ e.1 then (false, dest, e.2)
      else
        let ctx2 := { ctx with subject := some dest }
        let st4 := if ¬ subject then { e.2 with flagsWord := e.2.flagsWord ||| SERD_ANON_CONT }
                   else e.2
        let r := P.read_predicateObjectList ctx2 true st4
        let st5 := read_ws_star fuel r.2
        let st6 := (eat_byte st5 93).2
        let st7 :=
          match cfg.end_sink with
          | some _ => { st6 with events := st6.events ++ [Event.endAnon (public_node st6 (some dest))] }
          | none => st6
        let st8 := if ¬ was_anon_subject then { st7 with flagsWord := st7.flagsWord &&& NOT_ANON_CONT }
                   else st7
        (true, dest, st8)
  | 40 =>
    let r := P.read_collection ctx st
    if r.1 then
      match ctx.subject with
      | some _ =>
        let e := emit_statement cfg r.2.2 ctx.graph ctx.subject ctx.predicate (some r.2.1) none 0 0
        if ¬ e.1 then (false, r.2.1, e.2) else (true, r.2.1, e.2)
      | none => (true, r.2.1, r.2.2)
    else (false, r.2.1, r.2.2)
  | _ => (false, INTERNAL_NODE_NULL, st)

/-- read_object built over the previous level P. -/
def readObjectStep (cfg : RCfg) (P : Parsers) (fuel : Nat) (ctx : ReadContext)
    (st : RState) : Bool × RState :=
  let emit := ctx.subject ≠ none
  let c := peek_byte st
  if c = 0 ∨ c = 41 then (false, st)
  else if c = 91 ∨ c = 40 then
    let r := P.read_blank ctx false st
    readObjFinish cfg ctx false r.1 r.2.1 INTERNAL_NODE_NULL 0 0 r.2.2
  else if c = 95 then
    let r := P.read_blank ctx false st
    readObjFinish cfg ctx emit r.1 r.2.1 INTERNAL_NODE_NULL 0 0 r.2.2
  else if c = 60 ∨ c = 58 then
    let r := read_resource fuel st
    readObjFinish cfg ctx emit r.1 r.2.1 INTERNAL_NODE_NULL 0 0 r.2.2
  else if c = 34 ∨ c = 43 ∨ c = 45 ∨ c = 46 ∨ is_digit c then
    let r := read_literal fuel st INTERNAL_NODE_NULL 0 0
    readObjFinish cfg ctx emit r.1 r.2.1 r.2.2.1 r.2.2.2.1 r.2.2.2.2.1 r.2.2.2.2.2
  else
    let w := peekWindow st 6
    if w.take 4 = strBytes "true" ∧ is_object_end (w.getD 4 0) then
      let st1 := eat_string st (strBytes "true")
      let v := push_string st1 (strBytes "true")
      let d := push_uri v.2 (strBytes (NS_XSD ++ "boolean"))
      readObjFinish cfg ctx emit true ⟨SerdType.LITERAL, v.1⟩ d.1 0 0 d.2
    else if w.take 5 = strBytes "false" ∧ is_object_end (w.getD 5 0) then
      let st1 := eat_string st (strBytes "false")
      let v := push_string st1 (strBytes "false")
      let d := push_uri v.2 (strBytes (NS_XSD ++ "boolean"))
      readObjFinish cfg ctx emit true ⟨SerdType.LITERAL, v.1⟩ d.1 0 0 d.2
    else if ¬ is_object_end c then
      let q := read_qname fuel st
      readObjFinish cfg ctx emit (q.1 ≠ 0) ⟨SerdType.CURIE, q.1⟩ INTERNAL_NODE_NULL 0 0 q.2
    else
      readObjFinish cfg ctx emit false INTERNAL_NODE_NULL INTERNAL_NODE_NULL 0 0 st

/-- read_collection_rec built over the previous level P. -/
def readCollectionRecStep (cfg : RCfg) (P : Parsers) (fuel : Nat) (ctx : ReadContext)
    (st : RState) : Bool × RState :=
  let st1 := read_ws_star fuel st
  if peek_byte st1 = 41 then
    let st2 := (eat_byte st1 41).2
    let e := emit_statement cfg st2 none ctx.subject (some rdf_rest) (some rdf_nil) none 0 0
    (false, e.2)
  else
    let b := blank_id st1
    let rest : Node := ⟨SerdType.BLANK, b.1⟩
    let e := emit_statement cfg b.2 ctx.graph ctx.subject (some rdf_rest) (some rest) none 0 0
    if ¬ e.1 then (false, e.2)
    else
      let ctx2 := { ctx with subject := some rest, predicate := some rdf_first }
      let r := P.read_object ctx2 e.2
      if r.1 then
        let rc := P.read_collection_rec ctx2 r.2
        (true, pop_string rc.2 b.1)
      else (false, pop_string r.2 b.1)

/-- read_collection built over the previous level P. -/
def readCollectionStep (cfg : RCfg) (P : Parsers) (fuel : Nat) (ctx : ReadContext)
    (st : RState) : Bool × Node × RState :=
  let e := eat_byte st 40
  if e.1 = 0 then (false, INTERNAL_NODE_NULL, e.2)
  else
    let st1 := read_ws_star fuel e.2
    if peek_byte st1 = 41 then
      let st2 := (eat_byte st1 41).2
      (true, rdf_nil, st2)
    else
      let b := blank_id st1
      let dest : Node := ⟨SerdType.BLANK, b.1⟩
      let ctx2 := { ctx with subject := some dest, predicate := some rdf_first }
      let r := P.read_object ctx2 b.2
      if ¬ r.1 then (false, dest, r.2)
      else
        let rc := P.read_collection_rec ctx2 r.2
        (rc.1, dest, rc.2)

/-- The comma loop of read_objectList, built over the previous level P. -/
def objectListLoop (cfg : RCfg) (P : Parsers) : Nat → ReadContext → RState → Bool × RState
  | 0, _, st => (false, st)
  | f + 1, ctx, st =>
    if peek_byte st = 44 then
      let st1 := read_ws_star f (eat_byte st 44).2
      let r := P.read_object ctx st1
      if ¬ r.1 then (false, r.2)
      else objectListLoop cfg P f ctx (read_ws_star f r.2)
    else (true, st)

/-- read_objectList built over the previous level P. -/
def readObjectListStep (cfg : RCfg) (P : Parsers) (fuel : Nat) (ctx : ReadContext)
    (blank : Bool) (st : RState) : Bool × RState :=
  let r := P.read_object ctx st
  if ¬ r.1 then (false, r.2)
  else objectListLoop cfg P fuel ctx (read_ws_star fuel r.2)

/-- The semicolon loop of read_predicateObjectList, built over the
previous level P. A '.' or ']' after the semicolon ends the list. -/
def polLoop (cfg : RCfg) (P : Parsers) : Nat → ReadContext → Bool → RState → Bool × RState
  | 0, _, _, st => (false, st)
  | f + 1, ctx, blank, st =>
    if peek_byte st = 59 then
      let st1 := read_ws_star f (eat_byte st 59).2
      let c := peek_byte st1
      if c = 46 ∨ c = 93 then (true, st1)
      else
        let v := read_verb f st1
        if ¬ v.1 then (false, v.2.2)
        else
          let predicate := v.2.1
          let w := read_ws_plus f v.2.2
          if ¬ w.1 then (false, pop_string w.2 predicate.value)
          else
            let ol := readObjectListStep cfg P f { ctx with predicate := some predicate } blank w.2
            if ¬ ol.1 then (false, pop_string ol.2 predicate.value)
            else
              let st2 := pop_string ol.2 predicate.value
              polLoop cfg P f ctx blank (read_ws_star f st2)
    else (true, st)

/-- read_predicateObjectList built over the previous level P. -/
def readPolStep (cfg : RCfg) (P : Parsers) (fuel : Nat) (ctx : ReadContext)
    (blank : Bool) (st : RState) : Bool × RState :=
  if st.eof then (false, st)
  else
    let v := read_verb fuel st
    if ¬ v.1 then (false, v.2.2)
    else
      let predicate := v.2.1
      let w := read_ws_plus fuel v.2.2
      if ¬ w.1 then (false, pop_string w.2 predicate.value)
      else
        let ol := readObjectListStep cfg P fuel { ctx with predicate := some predicate } blank w.2
        if ¬ ol.1 then (false, pop_string ol.2 predicate.value)
        else
          let st1 := pop_string ol.2 predicate.value
          polLoop cfg P fuel ctx blank (read_ws_star fuel st1)

/-- The fuel-indexed tower of parser levels. -/
def mkParsers (cfg : RCfg) : Nat → Parsers
  | 0 => parsersZero
  | fuel + 1 =>
    let P := mkParsers cfg fuel
    { read_object := readObjectStep cfg P fuel,
      read_blank := readBlankStep cfg P fuel,
      read_collection := readCollectionStep cfg P fuel,
      read_collection_rec := readCollectionRecStep cfg P fuel,
      read_objectList := readObjectListStep cfg P fuel,
      read_predicateObjectList := readPolStep cfg P fuel }

/-- read_object at a given fuel. -/
def read_object (cfg : RCfg) (fuel : Nat) (ctx : ReadContext) (st : RState) : Bool × RState :=
  (mkParsers cfg fuel).read_object ctx st

/-- read_blank at a given fuel. -/
def read_blank (cfg : RCfg) (fuel : Nat) (ctx : ReadContext) (subject : Bool)
    (st : RState) : Bool × Node × RState :=
  (mkParsers cfg fuel).read_blank ctx subject st

/-! ## Statements and documents -/

/-- read_subject: a blank in subject position, or a resource. The C
ignores the success flag and returns the (possibly null) node. -/
def read_subject (cfg : RCfg) (fuel : Nat) (ctx : ReadContext) (st : RState) : Node × RState :=
  match peek_byte st with
  | 91 => let r := read_blank cfg fuel ctx true st; (r.2.1, r.2.2)
  | 40 => let r := read_blank cfg fuel ctx true st; (r.2.1, r.2.2)
  | 95 => let r := read_blank cfg fuel ctx true st; (r.2.1, r.2.2)
  | _ => let r := read_resource fuel st; (r.2.1, r.2.2)

/-- read_triples: subject, mandatory whitespace, predicateObjectList.
When the whitespace is missing the C returns without popping the subject
string (TRY_RET before the pop). -/
def read_triples (cfg : RCfg) (fuel : Nat) (ctx : ReadContext) (st : RState) : Bool × RState :=
  let s := read_subject cfg fuel ctx st
  if s.1.value ≠ 0 then
    let ctx2 := { ctx with subject := some s.1 }
    let w := read_ws_plus fuel s.2
    if ¬ w.1 then (false, w.2)
    else
      let r := (mkParsers cfg fuel).read_predicateObjectList ctx2 false w.2
      (r.1, pop_string r.2 s.1.value)
  else (false, s.2)

/-- read_base (the '@' is already eaten): a base sink, if present, is
invoked with the URI node and its return value is ignored. -/
def read_base (cfg : RCfg) (fuel : Nat) (st : RState) : Bool × RState :=
  let st1 := eat_string st (strBytes "base")
  let w := read_ws_plus fuel st1
  if ¬ w.1 then (false, w.2)
  else
    let u := read_uriref fuel w.2
    if u.1 = 0 then (false, u.2)
    else
      let node := public_node_from_ref u.2 SerdType.URI u.1
      let st2 :=
        match cfg.base_sink with
        | some _ => { u.2 with events := u.2.events ++ [Event.base node] }
        | none => u.2
      (true, pop_string st2 u.1)

/-- read_prefixID (the '@' is already eaten). Note the C initialises ret
to true and the error exits before the sink return it unchanged. -/
def readPrefixID (cfg : RCfg) (fuel : Nat) (st : RState) : Bool × RState :=
  let st1 := eat_string st (strBytes "prefix")
  let w := read_ws_plus fuel st1
  if ¬ w.1 then (false, w.2)
  else
    let p := readPrefixName fuel w.2
    let np := if p.1 = 0 then push_string p.2 [] else (p.1, p.2)
    let e := eat_byte np.2 58
    if e.1 ≠ 58 then (true, pop_string e.2 np.1)
    else
      let st2 := read_ws_star fuel e.2
      let u := read_uriref fuel st2
      if u.1 = 0 then (true, pop_string u.2 np.1)
      else
        let name_node := public_node_from_ref u.2 SerdType.LITERAL np.1
        let uri_node := public_node_from_ref u.2 SerdType.URI u.1
        let rs :=
          match cfg.prefix_sink with
          | none => (true, u.2)
          | some sink =>
            (sink name_node uri_node = 0,
             { u.2 with events := u.2.events ++ [Event.prefixDecl name_node uri_node] })
        let st3 := pop_string rs.2 u.1
        (rs.1, pop_string st3 np.1)

/-- read_directive: '@' then base or prefix. -/
def read_directive (cfg : RCfg) (fuel : Nat) (st : RState) : Bool × RState :=
  let e := (eat_byte st 64).2
  match peek_byte e with
  | 98 => read_base cfg fuel e
  | 112 => readPrefixID cfg fuel e
  | _ => (false, e)

/-- read_statement: the per-statement flags word starts at 0; leading
whitespace; end of input is success; a directive or triples; trailing
whitespace; a mandatory dot. -/
def read_statement (cfg : RCfg) (fuel : Nat) (st : RState) : Bool × RState :=
  let ctx : ReadContext := ⟨none, none, none⟩
  let st1 := read_ws_star fuel { st with flagsWord := 0 }
  if st1.eof then (true, st1)
  else
    let r := if peek_byte st1 = 64 then read_directive cfg fuel st1
             else read_triples cfg fuel ctx st1
    if ¬ r.1 then (false, r.2)
    else
      let st2 := read_ws_star fuel r.2
      let e := eat_byte st2 46
      (e.1 ≠ 0, e.2)

/-- read_turtleDoc: statements until eof. -/
def read_turtleDoc (cfg : RCfg) : Nat → RState → Bool × RState
  | 0, st => (false, st)
  | f + 1, st =>
    if st.eof then (true, st)
    else
      let r := read_statement cfg f st
      if ¬ r.1 then (false, r.2)
      else read_turtleDoc cfg f r.2

/-- serd_reader_read_string starting from a given reader state (the
cursor becomes line 1, column 1; eof is reset). -/
def serd_reader_read_string_from (cfg : RCfg) (fuel : Nat) (reader : RState)
    (utf8 : List Nat) : Nat × RState :=
  let st := { reader with input := utf8, read_head := 0, line := 1, col := 1, eof := false }
  let r := read_turtleDoc cfg fuel st
  (if r.1 then SERD_SUCCESS else SERD_ERR_UNKNOWN, r.2)

/-- serd_reader_new followed by serd_reader_read_string. -/
def serd_reader_read_string (cfg : RCfg) (fuel : Nat) (utf8 : List Nat) : Nat × RState :=
  serd_reader_read_string_from cfg fuel serd_reader_new utf8

/-! ## Concrete reader configurations and node constructors for the
claim theorems -/

/-- A Turtle reader with all four sinks supplied; every callback accepts
(returns 0). -/
def cfgAll : RCfg :=
  { syn := SerdSyn.TURTLE, base_sink := some (fun _ => 0),
    prefix_sink := some (fun _ _ => 0),
    statement_sink := some (fun _ _ _ _ _ _ _ => 0),
    end_sink := some (fun _ => 0) }

/-- A Turtle reader with all four sinks null. -/
def cfgNone : RCfg :=
  { syn := SerdSyn.TURTLE, base_sink := none, prefix_sink := none,
    statement_sink := none, end_sink := none }

/-- The public node an ASCII string of the given kind produces (byte and
character counts both equal the length). -/
def asciiNode (t : SerdType) (s : String) : SerdNode :=
  ⟨strBytes s, (strBytes s).length, (strBytes s).length, 0, t⟩

/-- Statement event with null graph, datatype and language. -/
def stmtEvent (fl : Nat) (s p o : SerdNode) : Event :=
  Event.stmt fl SERD_NODE_NULL s p o SERD_NODE_NULL SERD_NODE_NULL

/-- Statement event with null graph and language but a datatype. -/
def stmtEventD (fl : Nat) (s p o d : SerdNode) : Event :=
  Event.stmt fl SERD_NODE_NULL s p o d SERD_NODE_NULL

/-- C1 counterexample: for the two-element collection input the first
statement-sink call is NOT the linking triple (a, b, genid1) the claim
puts first; it is (genid1, rdf:first, c). -/
theorem C1_counterexample :
    (serd_reader_read_string cfgAll 100 (strBytes "<a> <b> (<c> <d>) .")).2.events.head?
        = some (stmtEvent 0 (asciiNode SerdType.BLANK "genid1")
                  (asciiNode SerdType.URI (NS_RDF ++ "first"))
                  (asciiNode SerdType.URI "c"))
      ∧ stmtEvent 0 (asciiNode SerdType.BLANK "genid1")
                  (asciiNode SerdType.URI (NS_RDF ++ "first"))
                  (asciiNode SerdType.URI "c")
          ≠ stmtEvent 0 (asciiNode SerdType.URI "a") (asciiNode SerdType.URI "b")
                  (asciiNode SerdType.BLANK "genid1") := by
  constructor
  · rfl
  · decide

/-- C1 as amended: the statement sink is called exactly five times, in
the order (genid1, rdf:first, c), (genid1, rdf:rest, genid2),
(genid2, rdf:first, d), (genid2, rdf:rest, rdf:nil), and last
(a, b, genid1): the extra triple linking the enclosing subject and
predicate to the list head is emitted after the chain, and the parse
succeeds. -/
theorem C1_collection_emission_order :
    (serd_reader_read_string cfgAll 100 (strBytes "<a> <b> (<c> <d>) .")).1 = SERD_SUCCESS
      ∧ (serd_reader_read_string cfgAll 100 (strBytes "<a> <b> (<c> <d>) .")).2.events =
        [stmtEvent 0 (asciiNode SerdType.BLANK "genid1")
           (asciiNode SerdType.URI (NS_RDF ++ "first")) (asciiNode SerdType.URI "c"),
         stmtEvent 0 (asciiNode SerdType.BLANK "genid1")
           (asciiNode SerdType.URI (NS_RDF ++ "rest")) (asciiNode SerdType.BLANK "genid2"),
         stmtEvent 0 (asciiNode SerdType.BLANK "genid2")
           (asciiNode SerdType.URI (NS_RDF ++ "first")) (asciiNode SerdType.URI "d"),
         stmtEvent 0 (asciiNode SerdType.BLANK "genid2")
           (asciiNode SerdType.URI (NS_RDF ++ "rest"))
           (asciiNode SerdType.URI (NS_RDF ++ "nil")),
         stmtEvent 0 (asciiNode SerdType.URI "a") (asciiNode SerdType.URI "b")
           (asciiNode SerdType.BLANK "genid1")] := by
  constructor
  · rfl
  · rfl

/-- C4: the anonymous-blank input emits (x, p, genid1) with flags
ANON_O_BEGIN, then (genid1, q, y) with flags ANON_CONT, then one end-sink
call with genid1, and the parse succeeds. -/
theorem C4_anon_blank_events :
    (serd_reader_read_string cfgAll 100 (strBytes "<x> <p> [ <q> <y> ] .")).1 = SERD_SUCCESS
      ∧ (serd_reader_read_string cfgAll 100 (strBytes "<x> <p> [ <q> <y> ] .")).2.events =
        [stmtEvent SERD_ANON_O_BEGIN (asciiNode SerdType.URI "x")
           (asciiNode SerdType.URI "p") (asciiNode SerdType.BLANK "genid1"),
         stmtEvent SERD_ANON_CONT (asciiNode SerdType.BLANK "genid1")
           (asciiNode SerdType.URI "q") (asciiNode SerdType.URI "y"),
         Event.endAnon (asciiNode SerdType.BLANK "genid1")] := by
  constructor
  · rfl
  · rfl

/-- C3: the code violates the arena invariant. On input "<a>." the
missing whitespace after the subject makes read_triples return through
TRY_RET without popping the subject string: the parse fails and the
arena ends 18 bytes (one record holding one byte) larger than the 200
bytes it held on entry. -/
theorem C3_arena_leak :
    (serd_reader_read_string cfgAll 100 (strBytes "<a>.")).1 = SERD_ERR_UNKNOWN
      ∧ serd_reader_new.stackSize = 200
      ∧ (serd_reader_read_string cfgAll 100 (strBytes "<a>.")).2.stackSize = 218 := by
  refine ⟨rfl, rfl, rfl⟩

/-- C2 counterexample: in "<a> <b> (true) ." the identifier true is
followed by ')', which the claim lists as an object terminator; but the
parse fails with no sink call at all, so no xsd:boolean literal is
emitted. -/
theorem C2_counterexample :
    (serd_reader_read_string cfgAll 100 (strBytes "<a> <b> (true) .")).1 = SERD_ERR_UNKNOWN
      ∧ (serd_reader_read_string cfgAll 100 (strBytes "<a> <b> (true) .")).2.events = [] := by
  refine ⟨rfl, rfl⟩

/-! ## Stack lookup lemmas -/

/-- Looking up a Ref after updating the record at that Ref gives the
updated record, provided the update preserves the offset. -/
theorem findRec_updAt (l : List StackRec) (ref : Nat) (upd : StackRec → StackRec)
    (h : ∀ r, (upd r).off = r.off) :
    findRec (updAt l ref upd) ref = (findRec l ref).map upd := by
  induction l with
  | nil => rfl
  | cons r rest ih =>
    by_cases hr : r.off = ref
    · simp [findRec, updAt, List.find?_cons, hr, h r]
    · simp [findRec, updAt, List.find?_cons, hr, h r] at ih ⊢
      exact ih

/-- Looking up the Ref returned by push_string finds the fresh record. -/
theorem findRec_push_string (st : RState) (s : List Nat) :
    findRec (push_string st s).2.stack (push_string st s).1
      = some ⟨st.stackSize, s.length, s.length, s⟩ := by
  simp [findRec, push_string, List.find?_cons]

/-- C9 counterexample: from a reader state whose unsigned 32-bit counter
holds 4294967295, the mint produces genid4294967295 and the counter wraps
to 0, so the very next mint produces genid0: the counter does not
strictly increase by one over the life of the reader. -/
theorem C9_counterexample :
    (findRec (blank_id { serd_reader_new with next_id := 4294967295 }).2.stack
        (blank_id { serd_reader_new with next_id := 4294967295 }).1).map StackRec.buf
      = some (strBytes "genid4294967295")
    ∧ (blank_id { serd_reader_new with next_id := 4294967295 }).2.next_id = 0
    ∧ (findRec (blank_id (blank_id { serd_reader_new with next_id := 4294967295 }).2).2.stack
        (blank_id (blank_id { serd_reader_new with next_id := 4294967295 }).2).1).map StackRec.buf
      = some (strBytes "genid0") := by
  refine ⟨rfl, rfl, rfl⟩

/-- C9 as amended: every minted blank-node identifier is
{userPrefix}genid{counter} where userPrefix is the string set by
serd_reader_add_blank_pfx (empty if none); the counter starts at 1 for
a new reader and increments by one modulo 2^32 with each mint (strictly
increasing until it wraps to 0 after 4294967295). -/
theorem C9_blank_id_mint :
    serd_reader_new.next_id = 1
    ∧ (∀ st p, (serd_reader_add_blank_pfx st p).bPfx = p)
    ∧ (∀ st : RState, (blank_id st).2.next_id = (st.next_id + 1) % UINT32_MOD)
    ∧ (∀ st : RState, (findRec (blank_id st).2.stack (blank_id st).1).map StackRec.buf
        = some ((st.bPfx.getD []) ++ (strBytes "genid" ++ natDecBytes st.next_id))) := by
  refine ⟨rfl, fun st p => rfl, fun st => ?_, fun st => ?_⟩
  · unfold blank_id
    cases hb : st.bPfx <;> simp [push_string, append_string]
  · unfold blank_id
    cases hb : st.bPfx <;>
      · simp only [append_string]
        rw [findRec_updAt, findRec_updAt, findRec_push_string]
        · simp
        · intro r; rfl
        · intro r; rfl

/-- C10: all four sinks are optional. A null statement sink makes every
emission succeed with no callback invoked, and parsing a valid document
that exercises the base, prefix, statement and end sinks with all four
null returns Success with no callback invoked at all. -/
theorem C10_null_sinks :
    (∀ (st : RState) (g s p o d : Option Node) (l f : Nat),
        (emit_statement cfgNone st g s p o d l f).1 = true
        ∧ (emit_statement cfgNone st g s p o d l f).2.events = st.events)
    ∧ (serd_reader_read_string cfgNone 100
        (strBytes "@base <nb> . @prefix pf: <u> . <x> <p> [ <q> <y> ] .")).1 = SERD_SUCCESS
    ∧ (serd_reader_read_string cfgNone 100
        (strBytes "@base <nb> . @prefix pf: <u> . <x> <p> [ <q> <y> ] .")).2.events = [] := by
  exact ⟨fun st g s p o d l f => ⟨rfl, rfl⟩, rfl, rfl⟩

/-! ## The hex-escape encoding (C8) -/

/-- The canonical UTF-8 encoding of a codepoint below 0x200000, written
arithmetically from the Unicode bit patterns. -/
def utf8EncodeSpec (c : Nat) : List Nat :=
  if c < 0x80 then [c]
  else if c < 0x800 then [0xC0 + c / 64, 0x80 + c % 64]
  else if c < 0x10000 then [0xE0 + c / 4096, 0x80 + c / 64 % 64, 0x80 + c % 64]
  else [0xF0 + c / 262144, 0x80 + c / 4096 % 64, 0x80 + c / 64 % 64, 0x80 + c % 64]

/-- Or with a 2^i-aligned value is addition when the low part fits. -/
theorem lor_aligned (i a b : Nat) (h : b < 2 ^ i) : (2 ^ i * a) ||| b = 2 ^ i * a + b :=
  (Nat.mul_add_lt_is_or h a).symm

/-- 128 ||| b for b < 128. -/
theorem lor128 (b : Nat) (h : b < 128) : 128 ||| b = 128 + b := by
  simpa using lor_aligned 7 1 b (by omega)

/-- b ||| 192 for b < 64. -/
theorem lor192 (b : Nat) (h : b < 64) : b ||| 192 = 192 + b := by
  rw [Nat.lor_comm]
  simpa using lor_aligned 6 3 b (by omega)

/-- b ||| 2048 for b < 2048. -/
theorem lor2048 (b : Nat) (h : b < 2048) : b ||| 2048 = 2048 + b := by
  rw [Nat.lor_comm]
  simpa using lor_aligned 11 1 b (by omega)

/-- b ||| 65536 for b < 65536. -/
theorem lor65536 (b : Nat) (h : b < 65536) : b ||| 65536 = 65536 + b := by
  rw [Nat.lor_comm]
  simpa using lor_aligned 16 1 b (by omega)

/-- And with 63 is mod 64. -/
theorem land63 (x : Nat) : x &&& 63 = x % 64 := by
  simpa using Nat.and_pow_two_sub_one_eq_mod x 6

/-- And with 255 is the identity below 256. -/
theorem land255 (x : Nat) (h : x < 256) : x &&& 255 = x := by
  have := Nat.and_pow_two_sub_one_eq_mod x 8
  simp at this
  omega

/-- Shift right by 6 is division by 64. -/
theorem shr6 (x : Nat) : x >>> 6 = x / 64 := by
  simpa using Nat.shiftRight_eq_div_pow x 6

/-- C8: the hex-escape encoder produces exactly the canonical UTF-8
encoding for every codepoint below 0x200000 (1 byte below 0x80, 2 below
0x800, 3 below 0x10000, 4 below 0x200000), fails for every larger value
(read_hex_escape then returns false and pushes nothing), and the input
with the escaped e-acute emits one literal whose bytes are 0xC3 0xA9. -/
theorem C8_hex_escape_utf8 :
    (∀ c : Nat, c < 0x200000 → hexEscapeEncode c = some (utf8EncodeSpec c)
      ∧ (utf8EncodeSpec c).length =
          (if c < 0x80 then 1 else if c < 0x800 then 2 else if c < 0x10000 then 3 else 4))
    ∧ (∀ c : Nat, 0x200000 ≤ c → hexEscapeEncode c = none)
    ∧ (∀ st length dest, hexEscapeEncode (sscanfHex (readHexDigits length st).1) = none →
        (read_hex_escape st length dest).1 = false
        ∧ (read_hex_escape st length dest).2.stack = (readHexDigits length st).2.stack)
    ∧ (serd_reader_read_string cfgAll 100 (strBytes "<x> <p> \"\\u00E9\" .")).1 = SERD_SUCCESS
    ∧ (serd_reader_read_string cfgAll 100 (strBytes "<x> <p> \"\\u00E9\" .")).2.events =
        [stmtEvent 0 (asciiNode SerdType.URI "x") (asciiNode SerdType.URI "p")
           ⟨[0xC3, 0xA9], 2, 1, 0, SerdType.LITERAL⟩] := by
  refine ⟨?_, ?_, ?_, rfl, rfl⟩
  · intro c hc
    unfold hexEscapeEncode utf8EncodeSpec utf8Step
    by_cases h1 : c < 128
    · simp [h1]
    · by_cases h2 : c < 2048
      · simp only [if_neg h1, if_pos h2, if_neg (by omega : ¬ c < 0x80)]
        rw [shr6, land63, lor128 _ (by omega), lor192 _ (by omega), land255 _ (by omega)]
        simp
      · by_cases h3 : c < 65536
        · simp only [if_neg h1, if_neg h2, if_pos h3, if_neg (by omega : ¬ c < 0x80),
            if_neg (by omega : ¬ c < 0x800)]
          rw [show (32 : Nat) <<< 6 = 2048 from rfl, shr6 c, land63 c]
          rw [lor2048 (c / 64) (by omega)]
          rw [land63 (2048 + c / 64), lor128 ((2048 + c / 64) % 64) (by omega)]
          rw [lor128 (c % 64) (by omega)]
          rw [shr6 (2048 + c / 64), lor192 ((2048 + c / 64) / 64) (by omega)]
          rw [land255 (192 + (2048 + c / 64) / 64) (by omega)]
          refine ⟨?_, rfl⟩
          simp only [Option.some.injEq, List.cons.injEq, and_true]
          omega
        · simp only [if_neg h1, if_neg h2, if_neg h3, if_pos hc,
            if_neg (by omega : ¬ c < 0x80), if_neg (by omega : ¬ c < 0x800),
            if_neg (by omega : ¬ c < 0x10000)]
          rw [show (16 : Nat) <<< 12 = 65536 from rfl, show (32 : Nat) <<< 6 = 2048 from rfl]
          rw [shr6 c, land63 c]
          rw [lor65536 (c / 64) (by omega)]
          rw [lor128 (c % 64) (by omega)]
          rw [land63 (65536 + c / 64), lor128 ((65536 + c / 64) % 64) (by omega)]
          rw [shr6 (65536 + c / 64), lor2048 ((65536 + c / 64) / 64) (by omega)]
          rw [land63 (2048 + (65536 + c / 64) / 64)]
          rw [lor128 ((2048 + (65536 + c / 64) / 64) % 64) (by omega)]
          rw [shr6 (2048 + (65536 + c / 64) / 64)]
          rw [lor192 ((2048 + (65536 + c / 64) / 64) / 64) (by omega)]
          rw [land255 (192 + (2048 + (65536 + c / 64) / 64) / 64) (by omega)]
          refine ⟨?_, rfl⟩
          simp only [Option.some.injEq, List.cons.injEq, and_true]
          omega
  · intro c hc
    unfold hexEscapeEncode
    simp only [if_neg (by omega : ¬ c < 0x80), if_neg (by omega : ¬ c < 0x800),
      if_neg (by omega : ¬ c < 0x10000), if_neg (by omega : ¬ c < 0x200000)]
  · intro st length dest h
    simp [read_hex_escape, h]

/-! ## Content tracking lemmas for C5 -/

/-- eat_byte does not touch the stack. -/
@[simp] theorem eat_byte_stack (st : RState) (b : Nat) : (eat_byte st b).2.stack = st.stack := by
  unfold eat_byte
  dsimp only
  split
  · rfl
  · split <;> rfl

/-- eat_byte does not change the stack size. -/
@[simp] theorem eat_byte_stackSize (st : RState) (b : Nat) :
    (eat_byte st b).2.stackSize = st.stackSize := by
  unfold eat_byte
  dsimp only
  split
  · rfl
  · split <;> rfl

/-- push_byte seen through a lookup at the same Ref. -/
theorem findRec_push_byte (st : RState) (ref c : Nat) :
    findRec (push_byte st ref c).stack ref = (findRec st.stack ref).map (pushUpd c) := by
  simp only [push_byte]
  rw [findRec_updAt]
  intro r
  rfl

/-- A push_string leaves lookups of older Refs unchanged. -/
theorem findRec_push_string_ne (st : RState) (s : List Nat) (ref : Nat)
    (h : ref ≠ st.stackSize) :
    findRec (push_string st s).2.stack ref = findRec st.stack ref := by
  simp only [push_string, findRec]
  rw [List.find?_cons_of_neg]
  simp [Ne.symm h]

/-- The buffer grown by the digit loop: some (possibly empty) list of
digit bytes is appended to the tracked string, and the stack size does
not shrink. -/
theorem digitLoop_spec (f : Nat) : ∀ st str, ∃ ds : List Nat,
    (∀ d ∈ ds, is_digit d = true)
    ∧ ((findRec (digitLoop f st str).stack str).map StackRec.buf
        = (findRec st.stack str).map (fun r => r.buf ++ ds))
    ∧ st.stackSize ≤ (digitLoop f st str).stackSize := by
  induction f with
  | zero =>
    intro st str
    refine ⟨[], by simp, ?_, Nat.le_refl _⟩
    cases hfr : findRec st.stack str <;> simp [digitLoop, hfr]
  | succ f ih =>
    intro st str
    by_cases h : is_digit (peek_byte st) = true
    · obtain ⟨ds, hds, heq, hsz⟩ := ih (push_byte (eat_byte st (peek_byte st)).2 str (peek_byte st)) str
      refine ⟨peek_byte st :: ds, ?_, ?_, ?_⟩
      · intro d hd
        rcases List.mem_cons.mp hd with h1 | h1
        · exact h1 ▸ h
        · exact hds d h1
      · rw [digitLoop]
        rw [if_pos h]
        rw [heq, findRec_push_byte]
        rw [eat_byte_stack]
        cases findRec st.stack str <;> simp [pushUpd]
      · rw [digitLoop, if_pos h]
        calc st.stackSize
            ≤ (push_byte (eat_byte st (peek_byte st)).2 str (peek_byte st)).stackSize := by
              simp [push_byte]
          _ ≤ _ := hsz
    · refine ⟨[], by simp, ?_, ?_⟩
      · rw [digitLoop, if_neg h]
        cases findRec st.stack str <;> simp
      · rw [digitLoop, if_neg h]

/-- read_0_9 on success appends only digit bytes. -/
theorem read_0_9_spec (f : Nat) (st : RState) (str : Nat) (alo : Bool)
    (h : (read_0_9 f st str alo).1 = true) : ∃ ds : List Nat,
    (∀ d ∈ ds, is_digit d = true)
    ∧ ((findRec (read_0_9 f st str alo).2.stack str).map StackRec.buf
        = (findRec st.stack str).map (fun r => r.buf ++ ds))
    ∧ st.stackSize ≤ (read_0_9 f st str alo).2.stackSize := by
  cases alo with
  | false =>
    obtain ⟨ds, hds, heq, hsz⟩ := digitLoop_spec f st str
    exact ⟨ds, hds, heq, hsz⟩
  | true =>
    by_cases hd : is_digit (peek_byte st) = true
    · obtain ⟨ds, hds, heq, hsz⟩ :=
        digitLoop_spec f (push_byte (eat_byte st (peek_byte st)).2 str (peek_byte st)) str
      have hre : (read_0_9 f st str true).2
          = digitLoop f (push_byte (eat_byte st (peek_byte st)).2 str (peek_byte st)) str := by
        simp [read_0_9, hd]
      refine ⟨peek_byte st :: ds, ?_, ?_, ?_⟩
      · intro d hdm
        rcases List.mem_cons.mp hdm with h1 | h1
        · exact h1 ▸ hd
        · exact hds d h1
      · rw [hre, heq, findRec_push_byte, eat_byte_stack]
        cases findRec st.stack str <;> simp [pushUpd]
      · rw [hre]
        calc st.stackSize
            ≤ (push_byte (eat_byte st (peek_byte st)).2 str (peek_byte st)).stackSize := by
              simp [push_byte]
          _ ≤ _ := hsz
    · exfalso
      simp [read_0_9, hd] at h

/-- read_0_9 with a mandatory first digit fails without touching the
state. -/
theorem read_0_9_fail (f : Nat) (st : RState) (str : Nat)
    (h : (read_0_9 f st str true).1 = false) : (read_0_9 f st str true).2 = st := by
  by_cases hd : is_digit (peek_byte st) = true
  · simp [read_0_9, hd] at h
  · simp [read_0_9, hd]

/-- Pushing a string does not move the read head. -/
@[simp] theorem peek_byte_push_string (st : RState) (s : List Nat) :
    peek_byte (push_string st s).2 = peek_byte st := rfl

/-- Pushing a byte does not move the read head. -/
@[simp] theorem peek_byte_push_byte (st : RState) (ref c : Nat) :
    peek_byte (push_byte st ref c) = peek_byte st := rfl

/-- push_byte grows the stack by one byte. -/
@[simp] theorem push_byte_stackSize (st : RState) (ref c : Nat) :
    (push_byte st ref c).stackSize = st.stackSize + 1 := rfl

/-- push_string grows the stack by header, bytes and NUL. -/
@[simp] theorem push_string_stackSize (st : RState) (s : List Nat) :
    (push_string st s).2.stackSize = st.stackSize + SERD_STRING_HEADER + s.length + 1 := rfl

/-- The datatype name the claim derives from the surface form of a
numeric literal: an exponent marker byte anywhere makes it double, else a
decimal point makes it decimal, else integer. -/
def numDatatypeOf (B : List Nat) : String :=
  if 101 ∈ B ∨ 69 ∈ B then "double"
  else if 46 ∈ B then "decimal" else "integer"

/-- read_0_9 with optional digits always succeeds. -/
theorem read_0_9_false_ok (f : Nat) (st : RState) (str : Nat) :
    (read_0_9 f st str false).1 = true := by
  simp [read_0_9]

/-- Mapping an append over a lookup whose buffer is known. -/
theorem map_buf_append (o : Option StackRec) (B ds : List Nat)
    (h : o.map StackRec.buf = some B) :
    o.map (fun r => r.buf ++ ds) = some (B ++ ds) := by
  cases o with
  | none => simp at h
  | some a =>
    simp at h ⊢
    rw [h]

/-- push_byte appends one byte to a tracked buffer. -/
theorem findRec_push_byte_buf (st : RState) (str c : Nat) (B : List Nat)
    (h : (findRec st.stack str).map StackRec.buf = some B) :
    (findRec (push_byte st str c).stack str).map StackRec.buf = some (B ++ [c]) := by
  rw [findRec_push_byte]
  cases hfr : findRec st.stack str with
  | none => rw [hfr] at h; simp at h
  | some a =>
    rw [hfr] at h
    simp at h
    simp [pushUpd, h]

/-- The eat-then-push idiom appends one byte to a tracked buffer. -/
theorem buf_after_push (st : RState) (b str c : Nat) (B : List Nat)
    (h : (findRec st.stack str).map StackRec.buf = some B) :
    (findRec (push_byte (eat_byte st b).2 str c).stack str).map StackRec.buf
      = some (B ++ [c]) := by
  apply findRec_push_byte_buf
  rw [eat_byte_stack]
  exact h

/-- The datatype pushed by readNumberSuffix is named by the content of
the literal string it returns: the token accumulated so far (with no
exponent marker, and a decimal point exactly when has_decimal is set)
either gains an exponent part, making the datatype xsd:double, or stays
as it is, making the datatype xsd:decimal or xsd:integer by has_decimal. -/
theorem readNumberSuffix_spec (f : Nat) (st : RState) (str : Nat) (has_decimal : Bool)
    (B : List Nat)
    (hfind : (findRec st.stack str).map StackRec.buf = some B)
    (hsz : str < st.stackSize)
    (hB : ∀ b ∈ B, b ≠ 101 ∧ b ≠ 69)
    (hdec : has_decimal = true ↔ 46 ∈ B) :
    (readNumberSuffix f st str has_decimal).1 = true
    ∧ (readNumberSuffix f st str has_decimal).2.1 = ⟨SerdType.LITERAL, str⟩
    ∧ ∃ B2 : List Nat,
        (findRec (readNumberSuffix f st str has_decimal).2.2.2.stack str).map StackRec.buf
          = some B2
        ∧ (findRec (readNumberSuffix f st str has_decimal).2.2.2.stack
             (readNumberSuffix f st str has_decimal).2.2.1.value).map StackRec.buf
            = some (strBytes (NS_XSD ++ numDatatypeOf B2)) := by
  have hdouble : ∀ B2 : List Nat, peek_byte st ∈ B2 →
      (peek_byte st = 101 ∨ peek_byte st = 69) → numDatatypeOf B2 = "double" := by
    intro B2 hmem he
    unfold numDatatypeOf
    rw [if_pos]
    rcases he with h | h
    · exact Or.inl (h ▸ hmem)
    · exact Or.inr (h ▸ hmem)
  by_cases he : peek_byte st = 101 ∨ peek_byte st = 69
  · -- exponent branch: xsd:double
    have hre : readNumberSuffix f st str has_decimal =
        (let st1 := push_byte (eat_byte st (peek_byte st)).2 str (peek_byte st)
         let c2 := peek_byte st1
         let st2 := if c2 = 43 ∨ c2 = 45 then push_byte (eat_byte st1 c2).2 str c2 else st1
         let r := read_0_9 f st2 str true
         let d := push_uri r.2 (strBytes (NS_XSD ++ "double"))
         (true, ⟨SerdType.LITERAL, str⟩, d.1, d.2)) := by
      simp only [readNumberSuffix, if_pos he]
    rw [hre]
    dsimp only
    set st1 := push_byte (eat_byte st (peek_byte st)).2 str (peek_byte st) with hst1
    have hfind1 : (findRec st1.stack str).map StackRec.buf = some (B ++ [peek_byte st]) :=
      buf_after_push st (peek_byte st) str (peek_byte st) B hfind
    have hsz1 : str < st1.stackSize := by
      rw [hst1]
      simp
      omega
    -- the state after the optional exponent sign, with its tracked buffer
    have main : ∀ (stS : RState) (BS : List Nat),
        (findRec stS.stack str).map StackRec.buf = some BS →
        str < stS.stackSize →
        peek_byte st ∈ BS →
        (let r := read_0_9 f stS str true
         let d := push_uri r.2 (strBytes (NS_XSD ++ "double"))
         ((true, (⟨SerdType.LITERAL, str⟩ : Node), d.1, d.2)).1 = true
         ∧ ((true, (⟨SerdType.LITERAL, str⟩ : Node), d.1, d.2)).2.1 = ⟨SerdType.LITERAL, str⟩
         ∧ ∃ B2 : List Nat,
             (findRec d.2.stack str).map StackRec.buf = some B2
             ∧ (findRec d.2.stack d.1.value).map StackRec.buf
                 = some (strBytes (NS_XSD ++ numDatatypeOf B2))) := by
      intro stS BS hfindS hszS hmemS
      dsimp only
      rcases hrd : (read_0_9 f stS str true).1 with _ | _
      · have hfail := read_0_9_fail f stS str hrd
        rw [hfail]
        refine ⟨rfl, rfl, BS, ?_, ?_⟩
        · simp only [push_uri]
          rw [findRec_push_string_ne _ _ _ (by omega)]
          exact hfindS
        · simp only [push_uri]
          rw [findRec_push_string]
          rw [hdouble BS hmemS he]
          rfl
      · obtain ⟨ds, hds, heq, hszr⟩ := read_0_9_spec f stS str true hrd
        refine ⟨rfl, rfl, BS ++ ds, ?_, ?_⟩
        · simp only [push_uri]
          rw [findRec_push_string_ne _ _ _ (by omega)]
          rw [heq]
          exact map_buf_append _ BS ds hfindS
        · simp only [push_uri]
          rw [findRec_push_string]
          rw [hdouble (BS ++ ds) (by simp [hmemS]) he]
          rfl
    by_cases hs2 : peek_byte st1 = 43 ∨ peek_byte st1 = 45
    · rw [if_pos hs2]
      exact main (push_byte (eat_byte st1 (peek_byte st1)).2 str (peek_byte st1))
        (B ++ [peek_byte st] ++ [peek_byte st1])
        (buf_after_push st1 (peek_byte st1) str (peek_byte st1) _ hfind1)
        (by simp; omega)
        (by simp)
    · rw [if_neg hs2]
      exact main st1 (B ++ [peek_byte st]) hfind1 hsz1 (by simp)
  · -- no exponent: xsd:decimal or xsd:integer by has_decimal
    have hnum : numDatatypeOf B = if has_decimal then "decimal" else "integer" := by
      unfold numDatatypeOf
      rw [if_neg]
      · cases hhd : has_decimal
        · rw [if_neg]
          · rfl
          · intro hmem
            exact absurd (hdec.mpr hmem) (by simp [hhd])
        · rw [if_pos (hdec.mp hhd)]
          simp
      · rintro (hmem | hmem)
        · exact (hB 101 hmem).1 rfl
        · exact (hB 69 hmem).2 rfl
    cases hhd : has_decimal
    · have hre : readNumberSuffix f st str false =
          (let d := push_uri st (strBytes (NS_XSD ++ "integer"))
           (true, ⟨SerdType.LITERAL, str⟩, d.1, d.2)) := by
        simp only [readNumberSuffix, if_neg he]
        rfl
      rw [hre]
      dsimp only
      refine ⟨rfl, rfl, B, ?_, ?_⟩
      · simp only [push_uri]
        rw [findRec_push_string_ne _ _ _ (by omega)]
        exact hfind
      · simp only [push_uri]
        rw [findRec_push_string]
        rw [hnum]
        simp [hhd]
    · have hre : readNumberSuffix f st str true =
          (let d := push_uri st (strBytes (NS_XSD ++ "decimal"))
           (true, ⟨SerdType.LITERAL, str⟩, d.1, d.2)) := by
        simp only [readNumberSuffix, if_neg he]
        rfl
      rw [hre]
      dsimp only
      refine ⟨rfl, rfl, B, ?_, ?_⟩
      · simp only [push_uri]
        rw [findRec_push_string_ne _ _ _ (by omega)]
        exact hfind
      · simp only [push_uri]
        rw [findRec_push_string]
        rw [hnum]
        simp [hhd]

/-- Digit bytes are not an exponent marker or a decimal point. -/
theorem digit_not_marker (d : Nat) (h : is_digit d = true) : d ≠ 101 ∧ d ≠ 69 ∧ d ≠ 46 := by
  simp [is_digit] at h
  omega

/-- The mantissa of read_number, on success, hands readNumberSuffix a
token made of the sign prefix, an optional decimal point, and digits,
and the suffix names the datatype after the token's surface form. -/
theorem readNumberMantissa_spec (f : Nat) (st1 : RState) (str : Nat) (B1 : List Nat)
    (dest dt : Node) (st2 : RState)
    (hfind : (findRec st1.stack str).map StackRec.buf = some B1)
    (hsz : str < st1.stackSize)
    (hB : ∀ b ∈ B1, b = 43 ∨ b = 45)
    (h : readNumberMantissa f st1 str = (true, dest, dt, st2)) :
    dest = ⟨SerdType.LITERAL, str⟩
    ∧ ∃ B : List Nat,
        (findRec st2.stack str).map StackRec.buf = some B
        ∧ (findRec st2.stack dt.value).map StackRec.buf
            = some (strBytes (NS_XSD ++ numDatatypeOf B)) := by
  have hB1ne : ∀ b ∈ B1, b ≠ 101 ∧ b ≠ 69 := by
    intro b hb
    rcases hB b hb with h1 | h1 <;> simp [h1]
  have hB1nd : 46 ∉ B1 := by
    intro hb
    rcases hB 46 hb with h1 | h1 <;> simp at h1
  unfold readNumberMantissa at h
  dsimp only at h
  by_cases hdot : peek_byte st1 = 46
  · rw [if_pos hdot] at h
    rcases hr : (read_0_9 f (push_byte (eat_byte st1 46).2 str 46) str true).1 with _ | _
    · rw [hr] at h
      simp at h
    · rw [hr] at h
      simp only [not_true, if_neg, ite_false] at h
      obtain ⟨ds, hds, heq, hszr⟩ := read_0_9_spec f _ str true hr
      have hfindD : (findRec (push_byte (eat_byte st1 46).2 str 46).stack str).map StackRec.buf
          = some (B1 ++ [46]) := buf_after_push st1 46 str 46 B1 hfind
      have hfind2 : (findRec (read_0_9 f (push_byte (eat_byte st1 46).2 str 46) str true).2.stack
          str).map StackRec.buf = some (B1 ++ [46] ++ ds) := by
        rw [heq]
        exact map_buf_append _ _ _ hfindD
      have hsz2 : str < (read_0_9 f (push_byte (eat_byte st1 46).2 str 46) str true).2.stackSize := by
        have h1 : (push_byte (eat_byte st1 46).2 str 46).stackSize = st1.stackSize + 1 := by simp
        omega
      have S := readNumberSuffix_spec f _ str true (B1 ++ [46] ++ ds) hfind2 hsz2
        (by
          intro b hb
          simp only [List.mem_append, List.mem_singleton] at hb
          rcases hb with (hb | hb) | hb
          · exact hB1ne b hb
          · simp [hb]
          · have := digit_not_marker b (hds b hb)
            exact ⟨this.1, this.2.1⟩)
        (by simp)
      rw [h] at S
      obtain ⟨-, hdest, B2, hL, hD⟩ := S
      exact ⟨hdest, B2, hL, hD⟩
  · rw [if_neg hdot] at h
    rcases hr : (read_0_9 f st1 str true).1 with _ | _
    · rw [hr] at h
      simp at h
    · rw [hr] at h
      simp only [not_true, if_neg, ite_false] at h
      obtain ⟨ds, hds, heq, hszr⟩ := read_0_9_spec f st1 str true hr
      have hfind2 : (findRec (read_0_9 f st1 str true).2.stack str).map StackRec.buf
          = some (B1 ++ ds) := by
        rw [heq]
        exact map_buf_append _ _ _ hfind
      have hsz2 : str < (read_0_9 f st1 str true).2.stackSize := by omega
      by_cases hdot2 : peek_byte (read_0_9 f st1 str true).2 = 46
      · rw [if_pos hdot2] at h
        have hok := read_0_9_false_ok f
          (push_byte (eat_byte (read_0_9 f st1 str true).2 46).2 str 46) str
        rw [hok] at h
        simp only [not_true, if_neg, ite_false] at h
        obtain ⟨ds2, hds2, heq2, hszr2⟩ := read_0_9_spec f
          (push_byte (eat_byte (read_0_9 f st1 str true).2 46).2 str 46) str false
          (read_0_9_false_ok f _ str)
        have hfindD : (findRec (push_byte (eat_byte (read_0_9 f st1 str true).2 46).2 str
            46).stack str).map StackRec.buf = some (B1 ++ ds ++ [46]) :=
          buf_after_push _ 46 str 46 _ hfind2
        have hfind3 : (findRec (read_0_9 f
            (push_byte (eat_byte (read_0_9 f st1 str true).2 46).2 str 46) str
            false).2.stack str).map StackRec.buf = some (B1 ++ ds ++ [46] ++ ds2) := by
          rw [heq2]
          exact map_buf_append _ _ _ hfindD
        have hsz3 : str < (read_0_9 f
            (push_byte (eat_byte (read_0_9 f st1 str true).2 46).2 str 46) str
            false).2.stackSize := by
          have h1 : (push_byte (eat_byte (read_0_9 f st1 str true).2 46).2 str 46).stackSize
              = (read_0_9 f st1 str true).2.stackSize + 1 := by simp
          omega
        have S := readNumberSuffix_spec f _ str true (B1 ++ ds ++ [46] ++ ds2) hfind3 hsz3
          (by
            intro b hb
            simp only [List.mem_append, List.mem_singleton] at hb
            rcases hb with ((hb | hb) | hb) | hb
            · exact hB1ne b hb
            · have := digit_not_marker b (hds b hb)
              exact ⟨this.1, this.2.1⟩
            · simp [hb]
            · have := digit_not_marker b (hds2 b hb)
              exact ⟨this.1, this.2.1⟩)
          (by simp)
        rw [h] at S
        obtain ⟨-, hdest, B2, hL, hD⟩ := S
        exact ⟨hdest, B2, hL, hD⟩
      · rw [if_neg hdot2] at h
        have S := readNumberSuffix_spec f _ str false (B1 ++ ds) hfind2 hsz2
          (by
            intro b hb
            simp only [List.mem_append] at hb
            rcases hb with hb | hb
            · exact hB1ne b hb
            · have := digit_not_marker b (hds b hb)
              exact ⟨this.1, this.2.1⟩)
          (by
            simp only [List.mem_append]
            constructor
            · intro hfalse
              simp at hfalse
            · rintro (hb | hb)
              · exact absurd hb hB1nd
              · exact absurd ((digit_not_marker 46 (hds 46 hb)).2.2) (by simp))
        rw [h] at S
        obtain ⟨-, hdest, B2, hL, hD⟩ := S
        exact ⟨hdest, B2, hL, hD⟩

/-- The Ref returned by push_string is the old stack size. -/
@[simp] theorem push_string_ref (st : RState) (s : List Nat) :
    (push_string st s).1 = st.stackSize := rfl

/-- C5: every numeric literal accepted emits a literal token whose
datatype is determined by its surface form (exponent marker anywhere
makes xsd:double, else a decimal point makes xsd:decimal, else
xsd:integer), and the input with the three literals 1, 1.0, 1e0 emits
exactly three statements with datatypes xsd:integer, xsd:decimal and
xsd:double in that order. -/
theorem C5_numeric_literal_datatype :
    (∀ (fuel : Nat) (st : RState) (dest dt : Node) (st2 : RState),
        read_number fuel st = (true, dest, dt, st2) →
        dest.typ = SerdType.LITERAL
        ∧ ∃ B : List Nat,
            (findRec st2.stack dest.value).map StackRec.buf = some B
            ∧ (findRec st2.stack dt.value).map StackRec.buf
                = some (strBytes (NS_XSD ++ numDatatypeOf B)))
    ∧ (serd_reader_read_string cfgAll 100 (strBytes "<a> <b> 1, 1.0, 1e0 .")).1 = SERD_SUCCESS
    ∧ (serd_reader_read_string cfgAll 100 (strBytes "<a> <b> 1, 1.0, 1e0 .")).2.events =
      [stmtEventD 0 (asciiNode SerdType.URI "a") (asciiNode SerdType.URI "b")
         (asciiNode SerdType.LITERAL "1") (asciiNode SerdType.URI (NS_XSD ++ "integer")),
       stmtEventD 0 (asciiNode SerdType.URI "a") (asciiNode SerdType.URI "b")
         (asciiNode SerdType.LITERAL "1.0") (asciiNode SerdType.URI (NS_XSD ++ "decimal")),
       stmtEventD 0 (asciiNode SerdType.URI "a") (asciiNode SerdType.URI "b")
         (asciiNode SerdType.LITERAL "1e0") (asciiNode SerdType.URI (NS_XSD ++ "double"))] := by
  refine ⟨?_, rfl, rfl⟩
  intro fuel st dest dt st2 h
  unfold read_number at h
  dsimp only at h
  have h0 : (findRec (push_string st []).2.stack (push_string st []).1).map StackRec.buf
      = some [] := by
    rw [findRec_push_string]
    rfl
  by_cases hsig : peek_byte (push_string st []).2 = 45 ∨ peek_byte (push_string st []).2 = 43
  · rw [if_pos hsig] at h
    have main := readNumberMantissa_spec fuel _ _ ([] ++ [peek_byte (push_string st []).2])
      dest dt st2
      (buf_after_push _ _ _ _ _ h0)
      (by simp only [push_string_ref, push_byte_stackSize, eat_byte_stackSize,
            push_string_stackSize]; omega)
      (by
        intro b hb
        simp at hb
        rw [hb]
        tauto)
      h
    obtain ⟨hdest, B, hL, hD⟩ := main
    rw [hdest]
    exact ⟨rfl, B, hL, hD⟩
  · rw [if_neg hsig] at h
    have main := readNumberMantissa_spec fuel _ _ [] dest dt st2 h0
      (by simp only [push_string_ref, push_string_stackSize]; omega)
      (by simp)
      h
    obtain ⟨hdest, B, hL, hD⟩ := main
    rw [hdest]
    exact ⟨rfl, B, hL, hD⟩

/-- A concrete reader state whose input is the integer literal 7. -/
def c5W : RState := { serd_reader_new with input := strBytes "7 " }

/-- Witness for C5: the universal part applied to the concrete reader
state c5W. -/
theorem C5_numeric_witness :
    (read_number 10 c5W).2.1.typ = SerdType.LITERAL
    ∧ ∃ B : List Nat,
        (findRec (read_number 10 c5W).2.2.2.stack
            (read_number 10 c5W).2.1.value).map StackRec.buf = some B
        ∧ (findRec (read_number 10 c5W).2.2.2.stack
            (read_number 10 c5W).2.2.1.value).map StackRec.buf
            = some (strBytes (NS_XSD ++ numDatatypeOf B)) :=
  C5_numeric_literal_datatype.1 10 c5W (read_number 10 c5W).2.1 (read_number 10 c5W).2.2.1
    (read_number 10 c5W).2.2.2 (by rfl)

/-- A concrete reader state whose input is eight uppercase F hex digits
(the largest 32-bit codepoint, far above the encodable range). -/
def c8W : RState := { serd_reader_new with input := strBytes "FFFFFFFF" }

/-- Witness for C8: the encoder equality at the codepoint 0xE9, the
failure bound at 0x200000, and the failing read_hex_escape on eight F
digits. -/
theorem C8_hex_witness :
    (hexEscapeEncode 233 = some (utf8EncodeSpec 233)
      ∧ (utf8EncodeSpec 233).length =
          (if 233 < 0x80 then 1 else if 233 < 0x800 then 2 else if 233 < 0x10000 then 3 else 4))
    ∧ hexEscapeEncode 2097152 = none
    ∧ ((read_hex_escape c8W 8 0).1 = false
        ∧ (read_hex_escape c8W 8 0).2.stack = (readHexDigits 8 c8W).2.stack) :=
  ⟨C8_hex_escape_utf8.1 233 (by decide),
   C8_hex_escape_utf8.2.1 2097152 (by decide),
   C8_hex_escape_utf8.2.2.1 c8W 8 0 (by rfl)⟩

/-! ## Projection lemmas for C2 -/

/-- eat_byte does not log events. -/
@[simp] theorem eat_byte_events (st : RState) (b : Nat) : (eat_byte st b).2.events = st.events := by
  unfold eat_byte
  dsimp only
  split
  · rfl
  · split <;> rfl

/-- eat_byte does not touch the flags word. -/
@[simp] theorem eat_byte_flagsWord (st : RState) (b : Nat) :
    (eat_byte st b).2.flagsWord = st.flagsWord := by
  unfold eat_byte
  dsimp only
  split
  · rfl
  · split <;> rfl

/-- eat_string does not log events. -/
theorem eat_string_events : ∀ (l : List Nat) (st : RState), (eat_string st l).events = st.events
  | [], _ => rfl
  | b :: l, st => by
    show (eat_string (eat_byte st b).2 l).events = st.events
    rw [eat_string_events l _, eat_byte_events]

/-- eat_string does not touch the stack. -/
theorem eat_string_stack : ∀ (l : List Nat) (st : RState), (eat_string st l).stack = st.stack
  | [], _ => rfl
  | b :: l, st => by
    show (eat_string (eat_byte st b).2 l).stack = st.stack
    rw [eat_string_stack l _, eat_byte_stack]

/-- eat_string does not change the stack size. -/
theorem eat_string_stackSize : ∀ (l : List Nat) (st : RState),
    (eat_string st l).stackSize = st.stackSize
  | [], _ => rfl
  | b :: l, st => by
    show (eat_string (eat_byte st b).2 l).stackSize = st.stackSize
    rw [eat_string_stackSize l _, eat_byte_stackSize]

/-- eat_string does not touch the flags word. -/
theorem eat_string_flagsWord : ∀ (l : List Nat) (st : RState),
    (eat_string st l).flagsWord = st.flagsWord
  | [], _ => rfl
  | b :: l, st => by
    show (eat_string (eat_byte st b).2 l).flagsWord = st.flagsWord
    rw [eat_string_flagsWord l _, eat_byte_flagsWord]

/-- push_string does not log events. -/
@[simp] theorem push_string_events (st : RState) (s : List Nat) :
    (push_string st s).2.events = st.events := rfl

/-- push_string does not touch the flags word. -/
@[simp] theorem push_string_flagsWord (st : RState) (s : List Nat) :
    (push_string st s).2.flagsWord = st.flagsWord := rfl

/-- pop_string does not log events. -/
@[simp] theorem pop_string_events (st : RState) (ref : Nat) :
    (pop_string st ref).events = st.events := rfl

/-- pop_string does not touch the flags word. -/
@[simp] theorem pop_string_flagsWord (st : RState) (ref : Nat) :
    (pop_string st ref).flagsWord = st.flagsWord := rfl

/-- Reading at an offset past a dropped prefix. -/
theorem byteAt_drop (l : List Nat) (h i : Nat) : byteAt l (h + i) = byteAt (l.drop h) i := by
  unfold byteAt
  rw [List.drop_drop]

/-- The events logged by the boolean-literal branch of read_object: one
statement whose object is the boolean token as a literal node with
datatype xsd:boolean. -/
theorem boolBranch_events (cfg : RCfg)
    (f0 : Nat → SerdNode → SerdNode → SerdNode → SerdNode → SerdNode → SerdNode → Nat)
    (ctx : ReadContext) (s0 : Node) (st1 : RState) (tok : String)
    (hsink : cfg.statement_sink = some f0) (hsubj : ctx.subject = some s0)
    (hsz : 0 < st1.stackSize) :
    (readObjFinish cfg ctx (ctx.subject ≠ none) true
        ⟨SerdType.LITERAL, (push_string st1 (strBytes tok)).1⟩
        (push_uri (push_string st1 (strBytes tok)).2 (strBytes (NS_XSD ++ "boolean"))).1 0 0
        (push_uri (push_string st1 (strBytes tok)).2 (strBytes (NS_XSD ++ "boolean"))).2).2.events
      = st1.events
        ++ [Event.stmt st1.flagsWord
              (public_node (push_uri (push_string st1 (strBytes tok)).2
                  (strBytes (NS_XSD ++ "boolean"))).2 ctx.graph)
              (public_node (push_uri (push_string st1 (strBytes tok)).2
                  (strBytes (NS_XSD ++ "boolean"))).2 ctx.subject)
              (public_node (push_uri (push_string st1 (strBytes tok)).2
                  (strBytes (NS_XSD ++ "boolean"))).2 ctx.predicate)
              (asciiNode SerdType.LITERAL tok)
              (asciiNode SerdType.URI (NS_XSD ++ "boolean")) SERD_NODE_NULL] := by
  have hemit : (ctx.subject ≠ none) := by simp [hsubj]
  unfold readObjFinish
  rw [if_pos ⟨rfl, by simp [hsubj]⟩]
  unfold emit_statement
  rw [hsink]
  dsimp only
  simp only [pop_string_events]
  congr 1
  congr 1
  have hfr : findRec (push_uri (push_string st1 (strBytes tok)).2
      (strBytes (NS_XSD ++ "boolean"))).2.stack (push_string st1 (strBytes tok)).1
      = some ⟨st1.stackSize, (strBytes tok).length, (strBytes tok).length, strBytes tok⟩ := by
    unfold push_uri
    dsimp only
    rw [findRec_push_string_ne _ _ _ (by simp only [push_string_ref, push_string_stackSize]; omega)]
    exact findRec_push_string st1 (strBytes tok)
  have hobj : public_node (push_uri (push_string st1 (strBytes tok)).2
      (strBytes (NS_XSD ++ "boolean"))).2
      (some ⟨SerdType.LITERAL, (push_string st1 (strBytes tok)).1⟩)
      = asciiNode SerdType.LITERAL tok := by
    unfold public_node public_node_from_ref
    dsimp only
    rw [if_neg (show ¬ (push_string st1 (strBytes tok)).1 = 0 by
          simp only [push_string_ref]; omega)]
    rw [hfr]
    rfl
  have hdt : public_node (push_uri (push_string st1 (strBytes tok)).2
      (strBytes (NS_XSD ++ "boolean"))).2
      (some (push_uri (push_string st1 (strBytes tok)).2 (strBytes (NS_XSD ++ "boolean"))).1)
      = asciiNode SerdType.URI (NS_XSD ++ "boolean") := by
    unfold public_node public_node_from_ref push_uri
    dsimp only
    rw [if_neg (show ¬ (push_string (push_string st1 (strBytes tok)).2
          (strBytes (NS_XSD ++ "boolean"))).1 = 0 by
          simp only [push_string_ref, push_string_stackSize]; omega)]
    rw [findRec_push_string]
    rfl
  rw [hobj, hdt]
  rfl

/-- read_object on input starting with the bare identifier true: a
following object-end byte gives one boolean-literal statement; any other
following byte sends the token into the CURIE branch. -/
theorem readObject_true_token (cfg : RCfg)
    (f0 : Nat → SerdNode → SerdNode → SerdNode → SerdNode → SerdNode → SerdNode → Nat)
    (ctx : ReadContext) (s0 : Node) (fuel : Nat) (st : RState) (suffix : List Nat)
    (hsink : cfg.statement_sink = some f0) (hsubj : ctx.subject = some s0)
    (hsz : 0 < st.stackSize)
    (hin : st.input.drop st.read_head = strBytes "true" ++ suffix) :
    (is_object_end (suffix.headD 0) = true →
      ∃ g s p : SerdNode,
        (read_object cfg (fuel + 1) ctx st).2.events
          = st.events ++ [Event.stmt st.flagsWord g s p
              (asciiNode SerdType.LITERAL "true")
              (asciiNode SerdType.URI (NS_XSD ++ "boolean")) SERD_NODE_NULL])
    ∧ (is_object_end (suffix.headD 0) = false →
      read_object cfg (fuel + 1) ctx st
        = readObjFinish cfg ctx (ctx.subject ≠ none) ((read_qname fuel st).1 ≠ 0)
            ⟨SerdType.CURIE, (read_qname fuel st).1⟩ INTERNAL_NODE_NULL 0 0
            (read_qname fuel st).2) := by
  have hpk : peek_byte st = 116 := by
    unfold peek_byte byteAt
    rw [hin]
    rfl
  have hb : ∀ k, byteAt st.input (st.read_head + k) = byteAt (strBytes "true" ++ suffix) k := by
    intro k
    rw [byteAt_drop, hin]
  have hw : peekWindow st 6 = [116, 114, 117, 101, suffix.headD 0, byteAt suffix 1] := by
    show [byteAt st.input (st.read_head + 0), byteAt st.input (st.read_head + 1),
          byteAt st.input (st.read_head + 2), byteAt st.input (st.read_head + 3),
          byteAt st.input (st.read_head + 4), byteAt st.input (st.read_head + 5)] = _
    rw [hb 0, hb 1, hb 2, hb 3, hb 4, hb 5]
    rfl
  have hro : read_object cfg (fuel + 1) ctx st
      = readObjectStep cfg (mkParsers cfg fuel) fuel ctx st := rfl
  constructor
  · intro hterm
    have hbr : read_object cfg (fuel + 1) ctx st
        = readObjFinish cfg ctx (ctx.subject ≠ none) true
            ⟨SerdType.LITERAL,
              (push_string (eat_string st (strBytes "true")) (strBytes "true")).1⟩
            (push_uri (push_string (eat_string st (strBytes "true")) (strBytes "true")).2
              (strBytes (NS_XSD ++ "boolean"))).1 0 0
            (push_uri (push_string (eat_string st (strBytes "true")) (strBytes "true")).2
              (strBytes (NS_XSD ++ "boolean"))).2 := by
      rw [hro]
      unfold readObjectStep
      dsimp only
      rw [hpk, hw]
      rw [if_neg (by decide : ¬((116 : Nat) = 0 ∨ (116 : Nat) = 41))]
      rw [if_neg (by decide : ¬((116 : Nat) = 91 ∨ (116 : Nat) = 40))]
      rw [if_neg (by decide : ¬(116 : Nat) = 95)]
      rw [if_neg (by decide : ¬((116 : Nat) = 60 ∨ (116 : Nat) = 58))]
      rw [if_neg (by decide :
            ¬((116 : Nat) = 34 ∨ (116 : Nat) = 43 ∨ (116 : Nat) = 45 ∨ (116 : Nat) = 46
              ∨ is_digit 116 = true))]
      rw [if_pos (⟨rfl, hterm⟩ :
            ([116, 114, 117, 101, suffix.headD 0, byteAt suffix 1].take 4 = strBytes "true"
             ∧ is_object_end ([116, 114, 117, 101, suffix.headD 0,
                 byteAt suffix 1].getD 4 0) = true))]
    rw [hbr]
    refine ⟨(public_node (push_uri (push_string (eat_string st (strBytes "true"))
          (strBytes "true")).2 (strBytes (NS_XSD ++ "boolean"))).2 ctx.graph),
        (public_node (push_uri (push_string (eat_string st (strBytes "true"))
          (strBytes "true")).2 (strBytes (NS_XSD ++ "boolean"))).2 ctx.subject),
        (public_node (push_uri (push_string (eat_string st (strBytes "true"))
          (strBytes "true")).2 (strBytes (NS_XSD ++ "boolean"))).2 ctx.predicate), ?_⟩
    rw [boolBranch_events cfg f0 ctx s0 (eat_string st (strBytes "true")) "true" hsink hsubj
        (by rw [eat_string_stackSize]; omega)]
    rw [eat_string_events, eat_string_flagsWord]
  · intro hterm
    rw [hro]
    unfold readObjectStep
    dsimp only
    rw [hpk, hw]
    rw [if_neg (by decide : ¬((116 : Nat) = 0 ∨ (116 : Nat) = 41))]
    rw [if_neg (by decide : ¬((116 : Nat) = 91 ∨ (116 : Nat) = 40))]
    rw [if_neg (by decide : ¬(116 : Nat) = 95)]
    rw [if_neg (by decide : ¬((116 : Nat) = 60 ∨ (116 : Nat) = 58))]
    rw [if_neg (by decide :
          ¬((116 : Nat) = 34 ∨ (116 : Nat) = 43 ∨ (116 : Nat) = 45 ∨ (116 : Nat) = 46
            ∨ is_digit 116 = true))]
    rw [if_neg (by
          rintro ⟨-, h2⟩
          rw [show ([116, 114, 117, 101, suffix.headD 0, byteAt suffix 1].getD 4 0)
              = suffix.headD 0 from rfl] at h2
          rw [hterm] at h2
          exact absurd h2 (by simp))]
    rw [if_neg (by
          rintro ⟨h1, -⟩
          rw [show strBytes "false" = [102, 97, 108, 115, 101] from rfl] at h1
          simp at h1)]
    rw [if_pos (by decide : ¬ is_object_end (116 : Nat) = true)]

/-- read_object on input starting with the bare identifier false: a
following object-end byte gives one boolean-literal statement; any other
following byte sends the token into the CURIE branch. -/
theorem readObject_false_token (cfg : RCfg)
    (f0 : Nat → SerdNode → SerdNode → SerdNode → SerdNode → SerdNode → SerdNode → Nat)
    (ctx : ReadContext) (s0 : Node) (fuel : Nat) (st : RState) (suffix : List Nat)
    (hsink : cfg.statement_sink = some f0) (hsubj : ctx.subject = some s0)
    (hsz : 0 < st.stackSize)
    (hin : st.input.drop st.read_head = strBytes "false" ++ suffix) :
    (is_object_end (suffix.headD 0) = true →
      ∃ g s p : SerdNode,
        (read_object cfg (fuel + 1) ctx st).2.events
          = st.events ++ [Event.stmt st.flagsWord g s p
              (asciiNode SerdType.LITERAL "false")
              (asciiNode SerdType.URI (NS_XSD ++ "boolean")) SERD_NODE_NULL])
    ∧ (is_object_end (suffix.headD 0) = false →
      read_object cfg (fuel + 1) ctx st
        = readObjFinish cfg ctx (ctx.subject ≠ none) ((read_qname fuel st).1 ≠ 0)
            ⟨SerdType.CURIE, (read_qname fuel st).1⟩ INTERNAL_NODE_NULL 0 0
            (read_qname fuel st).2) := by
  have hpk : peek_byte st = 102 := by
    unfold peek_byte byteAt
    rw [hin]
    rfl
  have hb : ∀ k, byteAt st.input (st.read_head + k) = byteAt (strBytes "false" ++ suffix) k := by
    intro k
    rw [byteAt_drop, hin]
  have hw : peekWindow st 6 = [102, 97, 108, 115, 101, suffix.headD 0] := by
    show [byteAt st.input (st.read_head + 0), byteAt st.input (st.read_head + 1),
          byteAt st.input (st.read_head + 2), byteAt st.input (st.read_head + 3),
          byteAt st.input (st.read_head + 4), byteAt st.input (st.read_head + 5)] = _
    rw [hb 0, hb 1, hb 2, hb 3, hb 4, hb 5]
    rfl
  have hro : read_object cfg (fuel + 1) ctx st
      = readObjectStep cfg (mkParsers cfg fuel) fuel ctx st := rfl
  constructor
  · intro hterm
    have hbr : read_object cfg (fuel + 1) ctx st
        = readObjFinish cfg ctx (ctx.subject ≠ none) true
            ⟨SerdType.LITERAL,
              (push_string (eat_string st (strBytes "false")) (strBytes "false")).1⟩
            (push_uri (push_string (eat_string st (strBytes "false")) (strBytes "false")).2
              (strBytes (NS_XSD ++ "boolean"))).1 0 0
            (push_uri (push_string (eat_string st (strBytes "false")) (strBytes "false")).2
              (strBytes (NS_XSD ++ "boolean"))).2 := by
      rw [hro]
      unfold readObjectStep
      dsimp only
      rw [hpk, hw]
      rw [if_neg (by decide : ¬((102 : Nat) = 0 ∨ (102 : Nat) = 41))]
      rw [if_neg (by decide : ¬((102 : Nat) = 91 ∨ (102 : Nat) = 40))]
      rw [if_neg (by decide : ¬(102 : Nat) = 95)]
      rw [if_neg (by decide : ¬((102 : Nat) = 60 ∨ (102 : Nat) = 58))]
      rw [if_neg (by decide :
            ¬((102 : Nat) = 34 ∨ (102 : Nat) = 43 ∨ (102 : Nat) = 45 ∨ (102 : Nat) = 46
              ∨ is_digit 102 = true))]
      rw [if_neg (by
            rintro ⟨h1, -⟩
            rw [show strBytes "true" = [116, 114, 117, 101] from rfl] at h1
            simp at h1)]
      rw [if_pos (⟨rfl, hterm⟩ :
            ([102, 97, 108, 115, 101, suffix.headD 0].take 5 = strBytes "false"
             ∧ is_object_end ([102, 97, 108, 115, 101, suffix.headD 0].getD 5 0) = true))]
    rw [hbr]
    refine ⟨(public_node (push_uri (push_string (eat_string st (strBytes "false"))
          (strBytes "false")).2 (strBytes (NS_XSD ++ "boolean"))).2 ctx.graph),
        (public_node (push_uri (push_string (eat_string st (strBytes "false"))
          (strBytes "false")).2 (strBytes (NS_XSD ++ "boolean"))).2 ctx.subject),
        (public_node (push_uri (push_string (eat_string st (strBytes "false"))
          (strBytes "false")).2 (strBytes (NS_XSD ++ "boolean"))).2 ctx.predicate), ?_⟩
    rw [boolBranch_events cfg f0 ctx s0 (eat_string st (strBytes "false")) "false" hsink hsubj
        (by rw [eat_string_stackSize]; omega)]
    rw [eat_string_events, eat_string_flagsWord]
  · intro hterm
    rw [hro]
    unfold readObjectStep
    dsimp only
    rw [hpk, hw]
    rw [if_neg (by decide : ¬((102 : Nat) = 0 ∨ (102 : Nat) = 41))]
    rw [if_neg (by decide : ¬((102 : Nat) = 91 ∨ (102 : Nat) = 40))]
    rw [if_neg (by decide : ¬(102 : Nat) = 95)]
    rw [if_neg (by decide : ¬((102 : Nat) = 60 ∨ (102 : Nat) = 58))]
    rw [if_neg (by decide :
          ¬((102 : Nat) = 34 ∨ (102 : Nat) = 43 ∨ (102 : Nat) = 45 ∨ (102 : Nat) = 46
            ∨ is_digit 102 = true))]
    rw [if_neg (by
          rintro ⟨h1, -⟩
          rw [show strBytes "true" = [116, 114, 117, 101] from rfl] at h1
          simp at h1)]
    rw [if_neg (by
          rintro ⟨-, h2⟩
          rw [show ([102, 97, 108, 115, 101, suffix.headD 0].getD 5 0)
              = suffix.headD 0 from rfl] at h2
          rw [hterm] at h2
          exact absurd h2 (by simp))]
    rw [if_pos (by decide : ¬ is_object_end (102 : Nat) = true)]

/-- C2 (amended): the set of bytes read_object accepts after a bare
true or false is exactly whitespace (0x09, 0x0A, 0x0D, 0x20), NUL (end
of input), and the bytes hash, dot and semicolon — comma, right paren
and right bracket are NOT terminators. When the byte after the
identifier is in that set, one statement is emitted whose object is the
literal true/false with datatype xsd:boolean; for any byte outside the
set the identifier is instead handed to the CURIE reader. -/
theorem C2_boolean_object_terminators (cfg : RCfg)
    (f0 : Nat → SerdNode → SerdNode → SerdNode → SerdNode → SerdNode → SerdNode → Nat)
    (ctx : ReadContext) (s0 : Node) (fuel : Nat) (st : RState) (suffix : List Nat)
    (tok : String) (htok : tok = "true" ∨ tok = "false")
    (hsink : cfg.statement_sink = some f0) (hsubj : ctx.subject = some s0)
    (hsz : 0 < st.stackSize)
    (hin : st.input.drop st.read_head = strBytes tok ++ suffix) :
    (∀ c : Nat, is_object_end c = true ↔
        (c = 9 ∨ c = 10 ∨ c = 13 ∨ c = 32 ∨ c = 0 ∨ c = 35 ∨ c = 46 ∨ c = 59))
    ∧ (is_object_end (suffix.headD 0) = true →
        ∃ g s p : SerdNode,
          (read_object cfg (fuel + 1) ctx st).2.events
            = st.events ++ [Event.stmt st.flagsWord g s p
                (asciiNode SerdType.LITERAL tok)
                (asciiNode SerdType.URI (NS_XSD ++ "boolean")) SERD_NODE_NULL])
    ∧ (is_object_end (suffix.headD 0) = false →
        read_object cfg (fuel + 1) ctx st
          = readObjFinish cfg ctx (ctx.subject ≠ none) ((read_qname fuel st).1 ≠ 0)
              ⟨SerdType.CURIE, (read_qname fuel st).1⟩ INTERNAL_NODE_NULL 0 0
              (read_qname fuel st).2) := by
  have hmain :
      (is_object_end (suffix.headD 0) = true →
        ∃ g s p : SerdNode,
          (read_object cfg (fuel + 1) ctx st).2.events
            = st.events ++ [Event.stmt st.flagsWord g s p
                (asciiNode SerdType.LITERAL tok)
                (asciiNode SerdType.URI (NS_XSD ++ "boolean")) SERD_NODE_NULL])
      ∧ (is_object_end (suffix.headD 0) = false →
        read_object cfg (fuel + 1) ctx st
          = readObjFinish cfg ctx (ctx.subject ≠ none) ((read_qname fuel st).1 ≠ 0)
              ⟨SerdType.CURIE, (read_qname fuel st).1⟩ INTERNAL_NODE_NULL 0 0
              (read_qname fuel st).2) := by
    rcases htok with h | h
    · subst h
      exact readObject_true_token cfg f0 ctx s0 fuel st suffix hsink hsubj hsz hin
    · subst h
      exact readObject_false_token cfg f0 ctx s0 fuel st suffix hsink hsubj hsz hin
  exact ⟨fun c => by
      simp only [is_object_end, Bool.or_eq_true, decide_eq_true_eq]
      omega,
    hmain.1, hmain.2⟩

/-- A reader state whose input is the five bytes of true-dot, used to
instantiate the terminator theorem at a concrete input. -/
def c2St : RState :=
  { serd_reader_new with input := strBytes "true." }

/-- A concrete read context whose subject is the rdf-nil vocabulary node. -/
def c2Ctx : ReadContext :=
  ⟨none, some ⟨SerdType.URI, rdfNilRef⟩, some ⟨SerdType.URI, rdfFirstRef⟩⟩

/-- Witness for C2: on the concrete input true-dot (the dot is an object
terminator) the boolean-literal statement really is emitted. -/
theorem C2_terminators_witness :
    ∃ g s p : SerdNode,
      (read_object cfgAll (99 + 1) c2Ctx c2St).2.events
        = c2St.events ++ [Event.stmt c2St.flagsWord g s p
            (asciiNode SerdType.LITERAL "true")
            (asciiNode SerdType.URI (NS_XSD ++ "boolean")) SERD_NODE_NULL] :=
  (C2_boolean_object_terminators cfgAll (fun _ _ _ _ _ _ _ => 0) c2Ctx
      ⟨SerdType.URI, rdfNilRef⟩ 99 c2St [46] "true" (Or.inl rfl) rfl rfl
      (by decide) rfl).2.1 (by decide)

/-! ## URI round trip (C6) -/

/-- C6 counterexample: the string a-questionmark parses with a null (hence
empty) path_base range, yet serialising the parse drops the empty query
and gives back only the byte a. -/
theorem C6_counterexample :
    (uriParse (strBytes "a?")).path_base = none
    ∧ uriSerialise (uriParse (strBytes "a?")) ≠ strBytes "a?" := by
  decide

/-- scanTo splits: the two parts concatenate back to the input. -/
theorem scanTo_append (stops : List Nat) (s : List Nat) :
    (scanTo stops s).1 ++ (scanTo stops s).2 = s := by
  induction s with
  | nil => rfl
  | cons c rest ih =>
    unfold scanTo
    by_cases h : c ∈ stops
    · rw [if_pos h]
      rfl
    · rw [if_neg h]
      dsimp only
      rw [List.cons_append, ih]

/-- The remainder scanTo leaves is empty or starts with a stop byte. -/
theorem scanTo_snd (stops : List Nat) (s : List Nat) :
    (scanTo stops s).2 = [] ∨ (scanTo stops s).2.headD 0 ∈ stops := by
  induction s with
  | nil => exact Or.inl rfl
  | cons c rest ih =>
    unfold scanTo
    by_cases h : c ∈ stops
    · rw [if_pos h]
      exact Or.inr h
    · rw [if_neg h]
      exact ih

/-- A remainder that is empty or starts with the hash byte is written back
verbatim by the fragment component. -/
theorem parseFragment_spec (s : List Nat) (h : s = [] ∨ s.headD 0 = 35) :
    writeComp [] (parseFragment s) [] = s := by
  match s, h with
  | [], _ => rfl
  | c :: rest, h =>
    have hc : c = 35 := by
      rcases h with h | h
      · exact absurd h (by simp)
      · exact h
    subst hc
    show (if (35 :: rest).length ≠ 0 then [] ++ (35 :: rest) ++ [] else []) = 35 :: rest
    rw [if_pos (by simp)]
    simp

/-- The query phase writes back what it consumed, provided the query it
found is not empty; its remainder is empty or starts with the hash byte. -/
theorem parseQuery_spec (s : List Nat)
    (h : s = [] ∨ s.headD 0 = 63 ∨ s.headD 0 = 35)
    (hq : (parseQuery s).1 ≠ some []) :
    writeComp [63] (parseQuery s).1 [] ++ (parseQuery s).2 = s
    ∧ ((parseQuery s).2 = [] ∨ (parseQuery s).2.headD 0 = 35) := by
  match s, h with
  | [], _ => exact ⟨rfl, Or.inl rfl⟩
  | c :: rest, h =>
    by_cases hc : c = 63
    · subst hc
      constructor
      · have hne : (scanTo [35] rest).1 ≠ [] := by
          intro habs
          exact hq (by show some (scanTo [35] rest).1 = some []; rw [habs])
        show (if ((scanTo [35] rest).1).length ≠ 0
              then [63] ++ (scanTo [35] rest).1 ++ [] else []) ++ (scanTo [35] rest).2
            = 63 :: rest
        rw [if_pos (by simpa [List.length_eq_zero] using hne)]
        rw [List.append_nil]
        show 63 :: ((scanTo [35] rest).1 ++ (scanTo [35] rest).2) = 63 :: rest
        rw [scanTo_append]
      · show (scanTo [35] rest).2 = [] ∨ ((scanTo [35] rest).2).headD 0 = 35
        have := scanTo_snd [35] rest
        simpa using this
    · have hnq : parseQuery (c :: rest) = (none, c :: rest) := by
        unfold parseQuery
        split
        · rename_i heq
          injection heq with h1 h2
          exact absurd h1 hc
        · rfl
      rw [hnq]
      refine ⟨rfl, Or.inr ?_⟩
      rcases h with h | h | h
      · exact absurd h (by simp)
      · exact absurd h hc
      · exact h

/-- The path phase writes back what it consumed; its remainder is empty or
starts with a question mark or hash byte. -/
theorem parsePath_spec (s : List Nat) :
    writeComp [] (parsePath s).1 [] ++ (parsePath s).2 = s
    ∧ ((parsePath s).2 = [] ∨ (parsePath s).2.headD 0 = 63
        ∨ (parsePath s).2.headD 0 = 35) := by
  match s with
  | [] => exact ⟨rfl, Or.inl rfl⟩
  | c :: rest =>
    by_cases hc : (c = 63 || c = 35) = true
    · have hp : parsePath (c :: rest) = (none, c :: rest) := by
        unfold parsePath
        dsimp only
        rw [if_pos hc]
      rw [hp]
      refine ⟨rfl, ?_⟩
      rcases Bool.or_eq_true_iff.mp hc with h | h
      · exact Or.inr (Or.inl (by simpa using h))
      · exact Or.inr (Or.inr (by simpa using h))
    · have hc2 : ¬(c = 63 ∨ c = 35) := by simpa using hc
      have hcm : c ∉ [63, 35] := by simpa using hc2
      have hCons : scanTo [63, 35] (c :: rest)
          = (c :: (scanTo [63, 35] rest).1, (scanTo [63, 35] rest).2) := by
        simp only [scanTo]
        rw [if_neg hcm]
      have hp : parsePath (c :: rest)
          = (some (c :: (scanTo [63, 35] rest).1), (scanTo [63, 35] rest).2) := by
        unfold parsePath
        dsimp only
        rw [if_neg hc, hCons]
      rw [hp]
      constructor
      · show (if (c :: (scanTo [63, 35] rest).1).length ≠ 0
              then [] ++ (c :: (scanTo [63, 35] rest).1) ++ [] else [])
            ++ (scanTo [63, 35] rest).2 = c :: rest
        rw [if_pos (by simp)]
        rw [List.append_nil]
        show c :: ((scanTo [63, 35] rest).1 ++ (scanTo [63, 35] rest).2) = c :: rest
        rw [scanTo_append]
      · have := scanTo_snd [63, 35] rest
        simpa using this

/-- The path, query and fragment components written by serialise give back
exactly the bytes the three phases consumed, provided the query found is
not empty. -/
theorem serialise_fromPath (sch auth : Option (List Nat)) (s : List Nat)
    (hq : (parseFromPath sch auth s).query ≠ some []) :
    writeComp [] (parseFromPath sch auth s).path []
    ++ (writeComp [63] (parseFromPath sch auth s).query []
        ++ writeComp [] (parseFromPath sch auth s).fragment []) = s := by
  have hq' : (parseQuery (parsePath s).2).1 ≠ some [] := hq
  obtain ⟨hp1, hp2⟩ := parsePath_spec s
  obtain ⟨hq1, hq2⟩ := parseQuery_spec (parsePath s).2 hp2 hq'
  have hf := parseFragment_spec (parseQuery (parsePath s).2).2 hq2
  show writeComp [] (parsePath s).1 []
      ++ (writeComp [63] (parseQuery (parsePath s).2).1 []
          ++ writeComp [] (parseFragment (parseQuery (parsePath s).2).2) []) = s
  rw [hf, hq1, hp1]

/-- The authority, path, query and fragment components written by
serialise give back exactly the bytes consumed after the scheme. -/
theorem serialise_fromAuthority (sch : Option (List Nat)) (s : List Nat)
    (hq : (parseFromAuthority sch s).query ≠ some []) :
    (match (parseFromAuthority sch s).authority with
      | some a => [47, 47] ++ a
      | none => [])
    ++ (writeComp [] (parseFromAuthority sch s).path []
        ++ (writeComp [63] (parseFromAuthority sch s).query []
            ++ writeComp [] (parseFromAuthority sch s).fragment [])) = s := by
  by_cases ha : byteAt s 0 = 47 ∧ byteAt s 1 = 47
  · match s, ha, hq with
    | [], ha, _ => exact absurd ha.1 (by decide)
    | [c], ha, _ =>
      exact absurd ha.2 (by rw [show byteAt [c] 1 = 0 from rfl]; decide)
    | c :: d :: rest, ha, hq =>
      have hc : c = 47 := ha.1
      have hd : d = 47 := ha.2
      subst hc
      subst hd
      have hFA : parseFromAuthority sch (47 :: 47 :: rest)
          = parseFromPath sch (some (scanTo [47, 63, 35] rest).1)
              (scanTo [47, 63, 35] rest).2 := rfl
      rw [hFA] at hq ⊢
      show ([47, 47] ++ (scanTo [47, 63, 35] rest).1)
          ++ (writeComp [] (parseFromPath sch (some (scanTo [47, 63, 35] rest).1)
                (scanTo [47, 63, 35] rest).2).path []
              ++ (writeComp [63] (parseFromPath sch (some (scanTo [47, 63, 35] rest).1)
                    (scanTo [47, 63, 35] rest).2).query []
                  ++ writeComp [] (parseFromPath sch (some (scanTo [47, 63, 35] rest).1)
                        (scanTo [47, 63, 35] rest).2).fragment []))
          = 47 :: 47 :: rest
      rw [serialise_fromPath sch (some (scanTo [47, 63, 35] rest).1)
            (scanTo [47, 63, 35] rest).2 hq]
      rw [List.append_assoc, scanTo_append]
      rfl
  · have hA : parseAuthority s = (none, s) := by
      unfold parseAuthority
      rw [if_neg ha]
    have hFA : parseFromAuthority sch s = parseFromPath sch none s := by
      show parseFromPath sch (parseAuthority s).1 (parseAuthority s).2 = _
      rw [hA]
    rw [hFA] at hq ⊢
    show [] ++ (writeComp [] (parseFromPath sch none s).path []
        ++ (writeComp [63] (parseFromPath sch none s).query []
            ++ writeComp [] (parseFromPath sch none s).fragment [])) = s
    rw [List.nil_append]
    exact serialise_fromPath sch none s hq

/-- A successful scheme split decomposes the input around the colon, and
the scheme is never empty. -/
theorem schemeSplit_spec (s sch rest : List Nat)
    (h : schemeSplit s = some (sch, rest)) :
    s = sch ++ 58 :: rest ∧ sch ≠ [] := by
  match s with
  | [] => exact absurd h (by simp [schemeSplit])
  | c :: tail =>
    unfold schemeSplit at h
    dsimp only at h
    by_cases hal : is_alpha c = true
    · rw [if_pos hal] at h
      split at h
      · rename_i a r2 heq
        injection h with h1
        injection h1 with hsch hrest
        subst hsch
        subst hrest
        refine ⟨?_, by simp⟩
        have h2 : a ++ 58 :: r2 = tail := by
          have h3 := scanTo_append [47, 63, 35, 58] tail
          rw [heq] at h3
          exact h3
        show c :: tail = c :: (a ++ 58 :: r2)
        rw [h2]
      · exact absurd h (by simp)
    · rw [if_neg hal] at h
      exact absurd h (by simp)

/-- C6 (amended): serd_uri_parse always leaves path_base null, and for
every URI string whose parsed query is not the empty-but-present range
(the byte after a question mark is hash or end of input), serialising the
parsed structure with serd_uri_serialise reproduces the original string
byte for byte. An empty query is the one loss: WRITE_COMPONENT tests len,
so the lone question mark is dropped on output. -/
theorem C6_parse_serialise_round_trip (s : List Nat)
    (hq : (uriParse s).query ≠ some []) :
    (uriParse s).path_base = none ∧ uriSerialise (uriParse s) = s := by
  rcases hss : schemeSplit s with _ | ⟨sch, rest⟩
  · have hu : uriParse s
        = if is_alpha (byteAt s 0) then parseFromPath none none s
          else parseFromAuthority none s := by
      unfold uriParse
      rw [hss]
    by_cases hal : is_alpha (byteAt s 0) = true
    · rw [if_pos hal] at hu
      rw [hu] at hq ⊢
      refine ⟨rfl, ?_⟩
      show (((([] : List Nat) ++ []) ++ writeComp [] (parseFromPath none none s).path [])
          ++ writeComp [63] (parseFromPath none none s).query [])
          ++ writeComp [] (parseFromPath none none s).fragment [] = s
      simp only [List.nil_append, List.append_assoc]
      exact serialise_fromPath none none s hq
    · rw [if_neg hal] at hu
      rw [hu] at hq ⊢
      refine ⟨rfl, ?_⟩
      show (((([] : List Nat)
            ++ (match (parseFromAuthority none s).authority with
                | some a => [47, 47] ++ a
                | none => []))
          ++ writeComp [] (parseFromAuthority none s).path [])
          ++ writeComp [63] (parseFromAuthority none s).query [])
          ++ writeComp [] (parseFromAuthority none s).fragment [] = s
      simp only [List.nil_append, List.append_assoc]
      exact serialise_fromAuthority none s hq
  · obtain ⟨hs_eq, hne⟩ := schemeSplit_spec s sch rest hss
    have hu : uriParse s = parseFromAuthority (some sch) rest := by
      unfold uriParse
      rw [hss]
    rw [hu] at hq ⊢
    refine ⟨rfl, ?_⟩
    show ((((if sch.length ≠ 0 then [] ++ sch ++ [58] else [])
          ++ (match (parseFromAuthority (some sch) rest).authority with
              | some a => [47, 47] ++ a
              | none => []))
        ++ writeComp [] (parseFromAuthority (some sch) rest).path [])
        ++ writeComp [63] (parseFromAuthority (some sch) rest).query [])
        ++ writeComp [] (parseFromAuthority (some sch) rest).fragment [] = s
    simp only [List.append_assoc]
    rw [serialise_fromAuthority (some sch) rest hq]
    rw [if_pos (by simpa [List.length_eq_zero] using hne)]
    rw [List.nil_append, List.append_assoc, hs_eq]
    rfl

/-- Witness for C6: a full URI with scheme, authority, path, non-empty
query and fragment round trips through parse and serialise. -/
theorem C6_round_trip_witness :
    (uriParse (strBytes "http://a/b?q#f")).path_base = none
    ∧ uriSerialise (uriParse (strBytes "http://a/b?q#f")) = strBytes "http://a/b?q#f" :=
  C6_parse_serialise_round_trip (strBytes "http://a/b?q#f") (by decide)

end Serd
